import Mathlib

set_option maxHeartbeats 1000000

/- Verification development for the filename grammar engine of
   imap_data_access/file_validation.py.

   Modelling conventions:
   * Python strings are Lean `String`s (in this toolchain a `String` is a wrapper
     around `List Char`), and the regex grammars of the source are embedded as
     deterministic character-list parsers that mirror CPython `re.match`
     semantics: matching is anchored at the start of the string, the end is
     unanchored unless the pattern ends in `$`, and `$` also accepts a single
     trailing newline (CPython: `$` matches at the end of the string or just
     before a newline at the end).  Each pattern of the source was analysed for
     backtracking behaviour and the parser below resolves the (few) genuinely
     nondeterministic points exactly the way the backtracking engine does; the
     analysis is recorded next to each parser.  `\d` is modelled as an ASCII
     digit and `str.lower` as ASCII lowering (no claim involves non-ASCII text).
   * `pathlib.Path(filename).name` is modelled by `pathName`.
   * Python `dict`s become association lists, exceptions become `Except`
     errors, and `None`-or-string values become `Option String`.
   * The accumulated error-message string of `validate_filename` is modelled as
     the ordered list of the violations appended to it; the message is empty
     (falsy) exactly when the list is empty. -/

deriving instance DecidableEq for Except

/-- Integer value of a list of ASCII digit characters, most significant first;
models Python `int()` applied to a regex capture consisting of digits. -/
def charsToNat (cs : List Char) : Nat :=
  cs.foldl (fun a c => 10 * a + (c.toNat - 48)) 0

/-- Match a literal run of characters at the head of the input and return the
rest (a fixed, character-by-character part of a regex). -/
def expectLit : List Char → List Char → Option (List Char)
  | [], cs => some cs
  | _ :: _, [] => none
  | p :: ps, c :: cs => if c = p then expectLit ps cs else none

/-- Match one literal character at the head of the input. -/
def expectChar (p : Char) (cs : List Char) : Option (List Char) :=
  match cs with
  | c :: rest => if c = p then some rest else none
  | [] => none

/-- Split at the first underscore: models the regex fragment `[^_]*_` (the
callers additionally require the captured part to be nonempty for `[^_]+_`).
The greedy class `[^_]` can never cross an underscore, so this is exactly what
the backtracking engine produces. -/
def splitAtUnderscore : List Char → Option (List Char × List Char)
  | [] => none
  | c :: rest =>
    if c = '_' then some ([], rest)
    else
      match splitAtUnderscore rest with
      | some (f, r) => some (c :: f, r)
      | none => none

/-- Take exactly `n` ASCII digits (the regex fragment `\d{n}`). -/
def takeNDigits : Nat → List Char → Option (List Char × List Char)
  | 0, cs => some ([], cs)
  | _ + 1, [] => none
  | n + 1, c :: cs =>
    if c.isDigit then
      match takeNDigits n cs with
      | some (d, r) => some (c :: d, r)
      | none => none
    else none

/-- Take a maximal (possibly empty) run of ASCII digits (the greedy regex
fragment `\d*`; callers requiring `\d+` check the run is nonempty).  In every
pattern below the character following the run is not a digit, so the greedy
maximal run is the only candidate the backtracking engine ever commits to. -/
def takeDigits : List Char → List Char × List Char
  | [] => ([], [])
  | c :: cs =>
    if c.isDigit then
      let (d, r) := takeDigits cs
      (c :: d, r)
    else ([], c :: cs)

/-- Components of a POSIX path string, as pathlib produces them: split on
slashes, drop empty components and single-dot components. -/
def splitOnSlash : List Char → List (List Char)
  | [] => [[]]
  | c :: rest =>
    if c = '/' then [] :: splitOnSlash rest
    else
      match splitOnSlash rest with
      | [] => [[c]]
      | g :: gs => (c :: g) :: gs

/-- Final path component, modelling `pathlib.Path(filename).name` (POSIX):
the last slash-separated component after dropping empty and `.` components,
or the empty string when none remains. -/
def pathName (s : String) : String :=
  String.mk (((splitOnSlash s.data).filter
    (fun g => decide (g ≠ [] ∧ g ≠ ['.']))).getLastD [])

/-- ASCII lowercase of a string, modelling `str.lower()` on the ASCII
filenames this code handles. -/
def asciiLower (s : String) : String := String.mk (s.data.map Char.toLower)

/-- Numeric value of one ASCII digit character. -/
def digitVal (c : Char) : Nat := c.toNat - 48

/-- The month token of CPython `_strptime` (`%m`), alternatives listed in the
preference order of the pattern `1[0-2]|0[1-9]|[1-9]`; every syntactically
possible alternative is listed so that the caller can model backtracking. -/
def monthAlts (cs : List Char) : List (Nat × List Char) :=
  (match cs with
   | '1' :: c :: r => if '0' ≤ c ∧ c ≤ '2' then [(10 + digitVal c, r)] else []
   | _ => []) ++
  (match cs with
   | '0' :: c :: r => if '1' ≤ c ∧ c ≤ '9' then [(digitVal c, r)] else []
   | _ => []) ++
  (match cs with
   | c :: r => if '1' ≤ c ∧ c ≤ '9' then [(digitVal c, r)] else []
   | _ => [])

/-- The day token of CPython `_strptime` (`%d`), alternatives in the
preference order of `3[01]|[12]\d|0[1-9]|[1-9]`. -/
def dayAlts (cs : List Char) : List (Nat × List Char) :=
  (match cs with
   | '3' :: c :: r => if c = '0' ∨ c = '1' then [(30 + digitVal c, r)] else []
   | _ => []) ++
  (match cs with
   | c1 :: c2 :: r =>
    if (c1 = '1' ∨ c1 = '2') ∧ c2.isDigit then [(10 * digitVal c1 + digitVal c2, r)] else []
   | _ => []) ++
  (match cs with
   | '0' :: c :: r => if '1' ≤ c ∧ c ≤ '9' then [(digitVal c, r)] else []
   | _ => []) ++
  (match cs with
   | c :: r => if '1' ≤ c ∧ c ≤ '9' then [(digitVal c, r)] else []
   | _ => [])

/-- Gregorian leap year, as used by `datetime`. -/
def isLeapYear (y : Nat) : Bool := y % 4 = 0 ∧ (y % 100 ≠ 0 ∨ y % 400 = 0)

/-- Days in a month, as enforced by the `datetime` constructor. -/
def daysInMonth (y m : Nat) : Nat :=
  if m = 2 then (if isLeapYear y then 29 else 28)
  else if m = 4 ∨ m = 6 ∨ m = 9 ∨ m = 11 then 30
  else 31

/-- First regex match of `%Y%m%d` in CPython `_strptime`: `%Y` is exactly four
digits, then the first (month, day) alternative pair in preference order; the
unconsumed tail is returned so the caller can reject unconverted data. -/
def strpYmd (cs : List Char) : Option (Nat × Nat × Nat × List Char) :=
  match takeNDigits 4 cs with
  | none => none
  | some (y4, rest) =>
    ((monthAlts rest).findSome? (fun p =>
      ((dayAlts p.2).head?).map (fun q => (p.1, q.1, q.2)))).map
      (fun t => (charsToNat y4, t.1, t.2.1, t.2.2))

/-- ImapFilePath.is_valid_date: `datetime.strptime(input_date, "%Y%m%d")`
succeeds iff the whole string is consumed (no unconverted data) and the
(year, month, day) triple is an actual calendar date with year at least 1. -/
def ImapFilePath.is_valid_date (input_date : String) : Bool :=
  match strpYmd input_date.data with
  | some (y, m, d, rest) => decide (rest = [] ∧ 1 ≤ y ∧ d ≤ daysInMonth y m)
  | none => false

/-- Format check `^v\d{3}$` applied by validate_filename to the version field
(the field is a regex capture of exactly `v` plus three digits, so the
trailing-newline allowance of `$` can never fire and is omitted here). -/
def versionFormatOk (s : String) : Bool :=
  match s.data with
  | 'v' :: a :: b :: c :: [] => a.isDigit && b.isDigit && c.isDigit
  | _ => false

/-- Modelled from the spec: the fixed instrument vocabulary (spec section 4.2
and the ScienceFilePath and AncillaryFilePath docstrings list codice, glows,
hi, hit, idex, lo, mag, swapi, swe, ultra); the constant `VALID_INSTRUMENTS`
itself lives in the package `__init__`, which is not among the provided
sources. -/
def VALID_INSTRUMENTS : List String :=
  ["codice", "glows", "hi", "hit", "idex", "lo", "mag", "swapi", "swe", "ultra"]

/-- Modelled from the spec: the data-level vocabulary (spec section 3 gives
the examples l0/l1a/l1b/l3a); the constant `VALID_DATALEVELS` lives in the
package `__init__`, outside the provided sources.  The claims below only use
membership in this set as a hypothesis. -/
def VALID_DATALEVELS : List String := ["l0", "l1a", "l1b", "l3a"]

/-- Modelled from the spec: valid science file extensions (pkts for l0, cdf
otherwise); the constant lives in the package `__init__`. -/
def VALID_FILE_EXTENSION : List String := ["pkts", "cdf"]

/-- Modelled from the spec: valid ancillary extensions cdf, csv, json (spec
section 4.3); the constant lives in the package `__init__`. -/
def VALID_ANCILLARY_FILE_EXTENSION : List String := ["cdf", "csv", "json"]

/- ===================== Science filename grammar ===================== -/

/-- Parsed captures of the science filename pattern
`^imap_(?P<instrument>[^_]+)_(?P<data_level>[^_]+)_(?P<descriptor>[^_]+)_`
`(?P<start_date>\d{8})(-repoint(?P<repointing>\d{5}))?_(?P<version>v\d{3})`
`\.(?P<extension>cdf|pkts)$`, with the repointing capture already converted to
an integer as ScienceFilePath.extract_filename_components does. -/
structure ScienceComponents where
  mission : String
  instrument : String
  data_level : String
  descriptor : String
  start_date : String
  repointing : Option Nat
  version : String
  extension : String
deriving DecidableEq

/-- The optional `(-repoint(?P<repointing>\d{5}))?_` step of the science
pattern.  The backtracking engine first tries the group; if the group fails,
or succeeds but is not followed by `_`, it retries without the group, which
then demands `_` at a position holding `-`, so the overall behaviour is the
deterministic one implemented here. -/
def parseRepointOpt : List Char → Option (Option Nat × List Char)
  | '_' :: rest => some (none, rest)
  | '-' :: rest =>
    (match expectLit ['r', 'e', 'p', 'o', 'i', 'n', 't'] rest with
     | none => none
     | some rest2 =>
       match takeNDigits 5 rest2 with
       | none => none
       | some (p5, rest3) =>
         match rest3 with
         | '_' :: rest4 => some (some (charsToNat p5), rest4)
         | _ => none)
  | _ => none

/-- The `(?P<version>v\d{3})` capture shared by the science and ancillary
patterns. -/
def parseVer3 : List Char → Option (String × List Char)
  | 'v' :: a :: b :: c :: rest =>
    if a.isDigit && b.isDigit && c.isDigit then some (String.mk ['v', a, b, c], rest)
    else none
  | _ => none

/-- The `(?P<extension>cdf|pkts)` alternation of the science pattern. -/
def parseSciExt : List Char → Option (String × List Char)
  | 'c' :: 'd' :: 'f' :: rest => some ("cdf", rest)
  | 'p' :: 'k' :: 't' :: 's' :: rest => some ("pkts", rest)
  | _ => none

/-- End-of-pattern `$` in CPython: end of string, or just before one trailing
newline. -/
def endAnchor (cs : List Char) : Bool := decide (cs = [] ∨ cs = ['\n'])

/-- The science filename pattern as a whole, on the character list of the
final path component. -/
def parseScience (cs : List Char) : Option ScienceComponents :=
  match expectLit ['i', 'm', 'a', 'p', '_'] cs with
  | none => none
  | some cs1 =>
  match splitAtUnderscore cs1 with
  | none => none
  | some (instr, cs2) =>
  if instr = [] then none else
  match splitAtUnderscore cs2 with
  | none => none
  | some (lvl, cs3) =>
  if lvl = [] then none else
  match splitAtUnderscore cs3 with
  | none => none
  | some (desc, cs4) =>
  if desc = [] then none else
  match takeNDigits 8 cs4 with
  | none => none
  | some (sd, cs5) =>
  match parseRepointOpt cs5 with
  | none => none
  | some (rep, cs6) =>
  match parseVer3 cs6 with
  | none => none
  | some (ver, cs7) =>
  match expectChar '.' cs7 with
  | none => none
  | some cs8 =>
  match parseSciExt cs8 with
  | none => none
  | some (ext, cs9) =>
  if endAnchor cs9 then
    some ⟨"imap", String.mk instr, String.mk lvl, String.mk desc, String.mk sd, rep, ver, ext⟩
  else none

/-- ScienceFilePath.extract_filename_components: take the final path component
and match it against the science pattern; `none` models the raised
InvalidScienceFileError. -/
def ScienceFilePath.extract_filename_components (filename : String) : Option ScienceComponents :=
  parseScience (pathName filename).data

/-- A constructed ScienceFilePath object: the original filename plus the
attributes copied from the extracted components. -/
structure ScienceFilePath where
  filename : String
  mission : String
  instrument : String
  data_level : String
  descriptor : String
  start_date : String
  repointing : Option Nat
  version : String
  extension : String
deriving DecidableEq

/-- One appended paragraph of the validate_filename error message. -/
inductive ScienceViolation where
  | missingAttribute
  | invalidMission
  | invalidInstrument
  | invalidDataLevel
  | invalidStartDate
  | invalidVersion
  | invalidExtension
deriving DecidableEq

/-- ScienceFilePath.validate_filename, as the ordered list of violations
appended to the error message.  The Python check
`if self.repointing and not isinstance(self.repointing, int)` can never append
anything because the extracted repointing is always an int or None, so it has
no counterpart here. -/
def ScienceFilePath.validate_filename (c : ScienceComponents) : List ScienceViolation :=
  (if c.mission = "" ∨ c.instrument = "" ∨ c.data_level = "" ∨ c.descriptor = "" ∨
      c.start_date = "" ∨ c.version = "" ∨ c.extension = "" then
    [ScienceViolation.missingAttribute] else []) ++
  (if c.mission ≠ "imap" then [ScienceViolation.invalidMission] else []) ++
  (if c.instrument ∈ VALID_INSTRUMENTS then [] else [ScienceViolation.invalidInstrument]) ++
  (if c.data_level ∈ VALID_DATALEVELS then [] else [ScienceViolation.invalidDataLevel]) ++
  (if ImapFilePath.is_valid_date c.start_date then [] else [ScienceViolation.invalidStartDate]) ++
  (if versionFormatOk c.version then [] else [ScienceViolation.invalidVersion]) ++
  (if c.extension ∉ VALID_FILE_EXTENSION ∨
      (c.data_level = "l0" ∧ c.extension ≠ "pkts") ∨
      (c.data_level ≠ "l0" ∧ c.extension ≠ "cdf") then
    [ScienceViolation.invalidExtension] else [])

/-- The InvalidScienceFileError class, with its two causes: the pattern did
not match in extract_filename_components, or validate_filename produced a
nonempty error message.  The dispatcher catches both identically. -/
inductive ScienceError where
  | patternMismatch
  | validationFailed (violations : List ScienceViolation)
deriving DecidableEq

/-- Build the object whose attributes __init__ copies from the components. -/
def ScienceFilePath.ofComponents (filename : String) (c : ScienceComponents) : ScienceFilePath :=
  ⟨filename, c.mission, c.instrument, c.data_level, c.descriptor, c.start_date,
   c.repointing, c.version, c.extension⟩

/-- ScienceFilePath construction (`__init__`): extract the components, then
validate; a nonempty error message raises InvalidScienceFileError. -/
def ScienceFilePath.fromFilename (filename : String) : Except ScienceError ScienceFilePath :=
  match ScienceFilePath.extract_filename_components filename with
  | none => Except.error ScienceError.patternMismatch
  | some c =>
    match ScienceFilePath.validate_filename c with
    | [] => Except.ok (ScienceFilePath.ofComponents filename c)
    | v => Except.error (ScienceError.validationFailed v)

/-- Little-endian decimal digits, fuel-based so that the kernel can evaluate
it; the fuel is an upper bound on the number written out. -/
def digitsRevAux : Nat → Nat → List Char
  | 0, _ => []
  | fuel + 1, n =>
    if n = 0 then [] else Char.ofNat (48 + n % 10) :: digitsRevAux fuel (n / 10)

/-- Little-endian decimal digits of a positive natural number. -/
def digitsRevOfNat (n : Nat) : List Char := digitsRevAux n n

/-- Decimal representation of a natural number, as Python `str`/`format`
print it. -/
def natToChars (n : Nat) : List Char :=
  if n = 0 then ['0'] else (digitsRevOfNat n).reverse

/-- Python `f"{n:05d}"` for a natural number: the decimal digits left-padded
with zeros to width 5. -/
def pad5 (n : Nat) : List Char :=
  List.replicate (5 - (natToChars n).length) '0' ++ natToChars n

/-- The filename assembled by ScienceFilePath.generate_from_inputs; the
repointing suffix is added only when the argument is truthy (not None and not
zero). -/
def science_filename_from_inputs (instrument data_level descriptor start_time version : String)
    (repointing : Option Nat) : String :=
  let extension := if data_level = "l0" then "pkts" else "cdf"
  let time_field := start_time ++ (match repointing with
    | some r => if r ≠ 0 then "-repoint" ++ String.mk (pad5 r) else ""
    | none => "")
  "imap_" ++ instrument ++ "_" ++ data_level ++ "_" ++ descriptor ++ "_" ++ time_field ++ "_" ++
    version ++ "." ++ extension

/-- ScienceFilePath.generate_from_inputs: build the filename from the fields
and construct a ScienceFilePath from it (re-validating through the grammar). -/
def ScienceFilePath.generate_from_inputs (instrument data_level descriptor start_time version : String)
    (repointing : Option Nat) : Except ScienceError ScienceFilePath :=
  ScienceFilePath.fromFilename
    (science_filename_from_inputs instrument data_level descriptor start_time version repointing)

/-- ScienceFilePath.construct_path, with paths modelled as their lists of
components and the data directory supplied as a (possibly empty) component
list prepended to the result:
`<data_dir>/<mission>/<instrument>/<data_level>/<YYYY>/<MM>/<filename>`. -/
def ScienceFilePath.construct_path (dataDir : List String) (p : ScienceFilePath) : List String :=
  dataDir ++ [p.mission, p.instrument, p.data_level,
    String.mk (p.start_date.data.take 4), String.mk ((p.start_date.data.drop 4).take 2),
    p.filename]

/- ===================== Ancillary filename grammar ===================== -/

/-- Parsed captures of the ancillary filename pattern
`^imap_(?P<instrument>[^_]+)_(?P<descriptor>[^_]+)_(?P<start_date>\d{8})`
`(_(?P<end_date>\d{8}))?_(?P<version>v\d{3})\.(?P<extension>cdf|csv|json)$`. -/
structure AncillaryComponents where
  mission : String
  instrument : String
  descriptor : String
  start_date : String
  end_date : Option String
  version : String
  extension : String
deriving DecidableEq

/-- The `(?P<extension>cdf|csv|json)` alternation of the ancillary pattern. -/
def parseAncExt : List Char → Option (String × List Char)
  | 'c' :: 'd' :: 'f' :: rest => some ("cdf", rest)
  | 'c' :: 's' :: 'v' :: rest => some ("csv", rest)
  | 'j' :: 's' :: 'o' :: 'n' :: rest => some ("json", rest)
  | _ => none

/-- The shared `(?P<version>v\d{3})\.<extension alternation>$` tail of the
ancillary pattern. -/
def parseAncVerExt (cs : List Char) : Option (String × String) :=
  match parseVer3 cs with
  | none => none
  | some (ver, cs1) =>
  match expectChar '.' cs1 with
  | none => none
  | some cs2 =>
  match parseAncExt cs2 with
  | none => none
  | some (ext, cs3) => if endAnchor cs3 then some (ver, ext) else none

/-- The ancillary filename pattern on the character list of the final path
component.  For the optional `(_(?P<end_date>\d{8}))?` group the backtracking
engine prefers taking the group; if the group matches syntactically but the
rest of the pattern then fails, the retry without the group must read a
version at a position holding a digit, which always fails, so committing to a
matched group is faithful. -/
def parseAncillary (cs : List Char) : Option AncillaryComponents :=
  match expectLit ['i', 'm', 'a', 'p', '_'] cs with
  | none => none
  | some cs1 =>
  match splitAtUnderscore cs1 with
  | none => none
  | some (instr, cs2) =>
  if instr = [] then none else
  match splitAtUnderscore cs2 with
  | none => none
  | some (desc, cs3) =>
  if desc = [] then none else
  match takeNDigits 8 cs3 with
  | none => none
  | some (sd, cs4) =>
  match cs4 with
  | '_' :: cs5 =>
    (match takeNDigits 8 cs5 with
     | some (ed, cs6) =>
       (match cs6 with
        | '_' :: cs7 =>
          (parseAncVerExt cs7).map (fun p =>
            ⟨"imap", String.mk instr, String.mk desc, String.mk sd, some (String.mk ed), p.1, p.2⟩)
        | _ => none)
     | none =>
       (parseAncVerExt cs5).map (fun p =>
         ⟨"imap", String.mk instr, String.mk desc, String.mk sd, none, p.1, p.2⟩))
  | _ => none

/-- AncillaryFilePath.extract_filename_components. -/
def AncillaryFilePath.extract_filename_components (filename : String) : Option AncillaryComponents :=
  parseAncillary (pathName filename).data

/-- A constructed AncillaryFilePath object. -/
structure AncillaryFilePath where
  filename : String
  mission : String
  instrument : String
  descriptor : String
  start_date : String
  end_date : Option String
  version : String
  extension : String
deriving DecidableEq

/-- One appended paragraph of the ancillary validate_filename error message. -/
inductive AncillaryViolation where
  | missingAttribute
  | invalidMission
  | invalidInstrument
  | invalidExtension
  | invalidStartDate
  | invalidEndDate
deriving DecidableEq

/-- AncillaryFilePath.validate_filename as the ordered violation list; the
end-date check runs only when the end date is truthy (present and nonempty). -/
def AncillaryFilePath.validate_filename (c : AncillaryComponents) : List AncillaryViolation :=
  (if c.mission = "" ∨ c.instrument = "" ∨ c.descriptor = "" ∨
      c.version = "" ∨ c.extension = "" then [AncillaryViolation.missingAttribute] else []) ++
  (if c.mission ≠ "imap" then [AncillaryViolation.invalidMission] else []) ++
  (if c.instrument ∈ VALID_INSTRUMENTS then [] else [AncillaryViolation.invalidInstrument]) ++
  (if c.extension ∈ VALID_ANCILLARY_FILE_EXTENSION then [] else [AncillaryViolation.invalidExtension]) ++
  (if ImapFilePath.is_valid_date c.start_date then [] else [AncillaryViolation.invalidStartDate]) ++
  (match c.end_date with
   | some e => if e ≠ "" ∧ ImapFilePath.is_valid_date e = false then [AncillaryViolation.invalidEndDate] else []
   | none => [])

/-- The InvalidAncillaryFileError class with its two causes. -/
inductive AncillaryError where
  | patternMismatch
  | validationFailed (violations : List AncillaryViolation)
deriving DecidableEq

/-- Build the object whose attributes __init__ copies from the components. -/
def AncillaryFilePath.ofComponents (filename : String) (c : AncillaryComponents) : AncillaryFilePath :=
  ⟨filename, c.mission, c.instrument, c.descriptor, c.start_date, c.end_date, c.version, c.extension⟩

/-- AncillaryFilePath construction (`__init__`). -/
def AncillaryFilePath.fromFilename (filename : String) : Except AncillaryError AncillaryFilePath :=
  match AncillaryFilePath.extract_filename_components filename with
  | none => Except.error AncillaryError.patternMismatch
  | some c =>
    match AncillaryFilePath.validate_filename c with
    | [] => Except.ok (AncillaryFilePath.ofComponents filename c)
    | v => Except.error (AncillaryError.validationFailed v)

/-- AncillaryFilePath.construct_path:
`<data_dir>/<mission>/ancillary/<instrument>/<filename>` (a flat layout, with
no subdirectories derived from dates). -/
def AncillaryFilePath.construct_path (dataDir : List String) (p : AncillaryFilePath) : List String :=
  dataDir ++ [p.mission, "ancillary", p.instrument, p.filename]

/- ===================== SPICE filename grammars ===================== -/

/-- _SPICE_TYPE_MAPPING: raw type token to semantic name. -/
def _SPICE_TYPE_MAPPING : List (String × String) :=
  [("ah.bc", "attitude_history"), ("ap.bc", "attitude_predict"), ("spin.csv", "spin"),
   ("repoint.csv", "repoint"), ("recon", "ephemeris_reconstructed"),
   ("nom", "ephemeris_nominal"), ("pred", "ephemeris_predicted"),
   ("90days", "ephemeris_90days"), ("long", "ephemeris_long"),
   ("launch", "ephemeris_launch"), ("de", "planetary_ephemeris"),
   ("pck", "planetary_constants"), ("naif", "leapseconds"),
   ("imapsclk_", "spacecraft_clock"), ("tf", "frames"), ("tm", "metakernel"),
   ("sff", "thruster")]

/-- _SPICE_DIR_MAPPING: semantic name to storage subdirectory. -/
def _SPICE_DIR_MAPPING : List (String × String) :=
  [("attitude_history", "ck"), ("attitude_predict", "ck"), ("spin", "spin"),
   ("repoint", "repoint"), ("ephemeris_reconstructed", "spk"),
   ("ephemeris_nominal", "spk"), ("ephemeris_predicted", "spk"),
   ("ephemeris_90days", "spk"), ("ephemeris_long", "spk"),
   ("ephemeris_launch", "spk"), ("planetary_ephemeris", "spk"),
   ("planetary_constants", "pck"), ("leapseconds", "lsk"),
   ("spacecraft_clock", "sclk"), ("frames", "fk"), ("metakernel", "mk"),
   ("thruster", "activities")]

/-- Dictionary lookup (`dict.get`) on the association lists above. -/
def lookupStr : List (String × String) → String → Option String
  | [], _ => none
  | (a, b) :: rest, k => if a = k then some b else lookupStr rest k

/-- A value of the Python metadata dictionary after the transforms: a string,
an int, or None. -/
inductive SpiceValue where
  | str (s : String)
  | int (n : Nat)
  | null
deriving DecidableEq

/-- The raw `match.groupdict()`: group name to optional capture. -/
abbrev SpiceGd := List (String × Option String)

/-- The transformed metadata dictionary. -/
abbrev SpiceMetadata := List (String × SpiceValue)

/-- Dictionary lookup on the transformed metadata. -/
def lookupKey (k : String) : SpiceMetadata → Option SpiceValue
  | [] => none
  | (a, v) :: rest => if a = k then some v else lookupKey k rest

/-- Groupdict of attitude_file_pattern (groups in definition order). -/
def gdP1 (sy sd ey ed ver ty : String) : SpiceGd :=
  [("mission", some "imap"), ("start_year", some sy), ("start_doy", some sd),
   ("end_year", some ey), ("end_doy", some ed), ("version", some ver), ("type", some ty)]

/-- Groupdict of repoint_file_pattern. -/
def gdP2 (sy sd ver ty : String) : SpiceGd :=
  [("mission", some "imap"), ("start_year", some sy), ("start_doy", some sd),
   ("version", some ver), ("type", some ty)]

/-- Groupdict of spacecraft_ephemeris_file_pattern; the version group is the
only optional group of the seven patterns, so its capture may be absent. -/
def gdP3 (ty sd ed : String) (ver : Option String) : SpiceGd :=
  [("mission", some "imap"), ("type", some ty), ("start_date", some sd),
   ("end_date", some ed), ("version", ver), ("extension", some "bsp")]

/-- Groupdict of spice_prod_ver_pattern. -/
def gdP4 (ty ver ext : String) : SpiceGd :=
  [("type", some ty), ("version", some ver), ("extension", some ext)]

/-- Groupdict of spice_frame_pattern. -/
def gdP5 (ver : String) : SpiceGd :=
  [("mission", some "imap"), ("version", some ver), ("type", some "tf")]

/-- Groupdict of sff_filename_pattern. -/
def gdP6 (sy sd mode ver : String) : SpiceGd :=
  [("mission", some "imap"), ("start_year", some sy), ("start_doy", some sd),
   ("mode", some mode), ("version", some ver), ("type", some "sff")]

/-- Groupdict of mk_filename_pattern. -/
def gdP7 (sy ver : String) : SpiceGd :=
  [("mission", some "imap"), ("start_year", some sy), ("version", some ver),
   ("type", some "tm")]

/-- The `(?P<type>ah.bc|ap.bc|spin.csv)` alternation of attitude_file_pattern.
The dots are unescaped in the source, so they match any character except a
newline; the capture is the text actually matched. -/
def p1type : List Char → Option String
  | 'a' :: 'h' :: c :: 'b' :: 'c' :: _ =>
    if c ≠ '\n' then some (String.mk ['a', 'h', c, 'b', 'c']) else none
  | 'a' :: 'p' :: c :: 'b' :: 'c' :: _ =>
    if c ≠ '\n' then some (String.mk ['a', 'p', c, 'b', 'c']) else none
  | 's' :: 'p' :: 'i' :: 'n' :: c :: 'c' :: 's' :: 'v' :: _ =>
    if c ≠ '\n' then some (String.mk ['s', 'p', 'i', 'n', c, 'c', 's', 'v']) else none
  | _ => none

/-- attitude_file_pattern:
`imap_(\d{4})_(\d{3})_(\d{4})_(\d{3})_(\d+)\.(ah.bc|ap.bc|spin.csv)`,
unanchored at the end.  The greedy `\d+` version run must be followed by a
literal dot; a shorter run would be followed by a digit, so the maximal run is
the only candidate. -/
def p1parse (cs : List Char) : Option SpiceGd :=
  match expectLit ['i', 'm', 'a', 'p', '_'] cs with
  | none => none
  | some cs1 =>
  match takeNDigits 4 cs1 with
  | none => none
  | some (sy, cs2) =>
  match expectChar '_' cs2 with
  | none => none
  | some cs3 =>
  match takeNDigits 3 cs3 with
  | none => none
  | some (sd, cs4) =>
  match expectChar '_' cs4 with
  | none => none
  | some cs5 =>
  match takeNDigits 4 cs5 with
  | none => none
  | some (ey, cs6) =>
  match expectChar '_' cs6 with
  | none => none
  | some cs7 =>
  match takeNDigits 3 cs7 with
  | none => none
  | some (ed, cs8) =>
  match expectChar '_' cs8 with
  | none => none
  | some cs9 =>
  let (ver, cs10) := takeDigits cs9
  if ver = [] then none else
  match expectChar '.' cs10 with
  | none => none
  | some cs11 =>
  (p1type cs11).map (fun ty =>
    gdP1 (String.mk sy) (String.mk sd) (String.mk ey) (String.mk ed) (String.mk ver) ty)

/-- The `(?P<type>repoint.csv)` capture (unescaped dot). -/
def p2type : List Char → Option String
  | 'r' :: 'e' :: 'p' :: 'o' :: 'i' :: 'n' :: 't' :: c :: 'c' :: 's' :: 'v' :: _ =>
    if c ≠ '\n' then some (String.mk ['r', 'e', 'p', 'o', 'i', 'n', 't', c, 'c', 's', 'v'])
    else none
  | _ => none

/-- repoint_file_pattern: `imap_(\d{4})_(\d{3})_(\d+)\.(repoint.csv)`. -/
def p2parse (cs : List Char) : Option SpiceGd :=
  match expectLit ['i', 'm', 'a', 'p', '_'] cs with
  | none => none
  | some cs1 =>
  match takeNDigits 4 cs1 with
  | none => none
  | some (sy, cs2) =>
  match expectChar '_' cs2 with
  | none => none
  | some cs3 =>
  match takeNDigits 3 cs3 with
  | none => none
  | some (sd, cs4) =>
  match expectChar '_' cs4 with
  | none => none
  | some cs5 =>
  let (ver, cs6) := takeDigits cs5
  if ver = [] then none else
  match expectChar '.' cs6 with
  | none => none
  | some cs7 =>
  (p2type cs7).map (fun ty => gdP2 (String.mk sy) (String.mk sd) (String.mk ver) ty)

/-- The class `[a-zA-Z0-9\-]` of the spacecraft-ephemeris type token. -/
def p3classChar (c : Char) : Bool := c.isAlpha || c.isDigit || c == '-'

/-- spacecraft_ephemeris_file_pattern:
`imap_([a-zA-Z0-9\-]+)_(\d{8})_(\d{8})(?:|_v(\d*))\.(bsp)`.  The type class
cannot match an underscore, so the greedy run up to the next underscore is
forced; the `(?:|_v...)` alternation prefers the empty branch, which demands a
literal `.` next, and otherwise reads `_v` plus a greedy digit run (possibly
empty, leaving an empty version capture). -/
def p3parse (cs : List Char) : Option SpiceGd :=
  match expectLit ['i', 'm', 'a', 'p', '_'] cs with
  | none => none
  | some cs1 =>
  let (ty, cs2) := cs1.span p3classChar
  if ty = [] then none else
  match expectChar '_' cs2 with
  | none => none
  | some cs3 =>
  match takeNDigits 8 cs3 with
  | none => none
  | some (sd, cs4) =>
  match expectChar '_' cs4 with
  | none => none
  | some cs5 =>
  match takeNDigits 8 cs5 with
  | none => none
  | some (ed, cs6) =>
  match cs6 with
  | '.' :: 'b' :: 's' :: 'p' :: _ =>
    some (gdP3 (String.mk ty) (String.mk sd) (String.mk ed) none)
  | '_' :: 'v' :: cs7 =>
    (let (ver, cs8) := takeDigits cs7
     match cs8 with
     | '.' :: 'b' :: 's' :: 'p' :: _ =>
       some (gdP3 (String.mk ty) (String.mk sd) (String.mk ed) (some (String.mk ver)))
     | _ => none)
  | _ => none

/-- The class `[a-zA-Z\-_]` of the product-version type token. -/
def p4classChar (c : Char) : Bool := c.isAlpha || c == '-' || c == '_'

/-- The `(?P<extension>tls|tpc|bsp|tsc)` alternation. -/
def p4ext : List Char → Option String
  | 't' :: 'l' :: 's' :: _ => some "tls"
  | 't' :: 'p' :: 'c' :: _ => some "tpc"
  | 'b' :: 's' :: 'p' :: _ => some "bsp"
  | 't' :: 's' :: 'c' :: _ => some "tsc"
  | _ => none

/-- spice_prod_ver_pattern: `([a-zA-Z\-_]+)(\d+)\.(tls|tpc|bsp|tsc)`.  The
type class holds no digits and the version run no letters, so both greedy
runs are forced. -/
def p4parse (cs : List Char) : Option SpiceGd :=
  let (ty, cs1) := cs.span p4classChar
  if ty = [] then none else
  let (ver, cs2) := takeDigits cs1
  if ver = [] then none else
  match expectChar '.' cs2 with
  | none => none
  | some cs3 => (p4ext cs3).map (fun e => gdP4 (String.mk ty) (String.mk ver) e)

/-- spice_frame_pattern: `imap_(\d+)\.(tf)`. -/
def p5parse (cs : List Char) : Option SpiceGd :=
  match expectLit ['i', 'm', 'a', 'p', '_'] cs with
  | none => none
  | some cs1 =>
  let (ver, cs2) := takeDigits cs1
  if ver = [] then none else
  match cs2 with
  | '.' :: 't' :: 'f' :: _ => some (gdP5 (String.mk ver))
  | _ => none

/-- The class `[a-zA-Z0-9\-_]` of the thruster mode token. -/
def p6classChar (c : Char) : Bool := c.isAlpha || c.isDigit || c == '-' || c == '_'

/-- The `_(?P<version>\d{2})\.(?P<type>sff)` tail after the mode token. -/
def p6tail : List Char → Option String
  | '_' :: a :: b :: '.' :: 's' :: 'f' :: 'f' :: _ =>
    if a.isDigit && b.isDigit then some (String.mk [a, b]) else none
  | _ => none

/-- Backtracking of the greedy mode run of sff_filename_pattern: the engine
takes the maximal class run and gives characters back from the right, one at
a time, until the `_\d{2}\.sff` tail matches; the mode must stay nonempty. -/
def p6shrink : List Char → List Char → Option (List Char × String)
  | [], _ => none
  | c :: mr, rest =>
    match p6tail rest with
    | some v => some ((c :: mr).reverse, v)
    | none => p6shrink mr (c :: rest)

/-- sff_filename_pattern:
`imap_(\d{4})_(\d{3})_([a-zA-Z0-9\-_]+)_(\d{2})\.(sff)`. -/
def p6parse (cs : List Char) : Option SpiceGd :=
  match expectLit ['i', 'm', 'a', 'p', '_'] cs with
  | none => none
  | some cs1 =>
  match takeNDigits 4 cs1 with
  | none => none
  | some (sy, cs2) =>
  match expectChar '_' cs2 with
  | none => none
  | some cs3 =>
  match takeNDigits 3 cs3 with
  | none => none
  | some (sd, cs4) =>
  match expectChar '_' cs4 with
  | none => none
  | some cs5 =>
  let (run, rest) := cs5.span p6classChar
  match p6shrink run.reverse rest with
  | some (mode, ver) => some (gdP6 (String.mk sy) (String.mk sd) (String.mk mode) ver)
  | none => none

/-- mk_filename_pattern: `imap_(\d{4})_v(\d{3})\.(tm)`. -/
def p7parse (cs : List Char) : Option SpiceGd :=
  match expectLit ['i', 'm', 'a', 'p', '_'] cs with
  | none => none
  | some cs1 =>
  match takeNDigits 4 cs1 with
  | none => none
  | some (sy, cs2) =>
  match cs2 with
  | '_' :: 'v' :: cs3 =>
    (match takeNDigits 3 cs3 with
     | none => none
     | some (ver, cs4) =>
       match cs4 with
       | '.' :: 't' :: 'm' :: _ => some (gdP7 (String.mk sy) (String.mk ver))
       | _ => none)
  | _ => none

/-- SPICEFilePath._matches_on_group over valid_spice_regexes: the first of the
seven patterns, in declaration order, that matches the (lowered) final path
component. -/
def spiceFirstMatch (cs : List Char) : Option SpiceGd :=
  match p1parse cs with
  | some gd => some gd
  | none =>
  match p2parse cs with
  | some gd => some gd
  | none =>
  match p3parse cs with
  | some gd => some gd
  | none =>
  match p4parse cs with
  | some gd => some gd
  | none =>
  match p5parse cs with
  | some gd => some gd
  | none =>
  match p6parse cs with
  | some gd => some gd
  | none => p7parse cs

/-- The exceptions SPICE construction can raise: InvalidSPICEFileError (no
pattern matched), TypeError (`int(None)` on an absent version capture), or
ValueError (`int("")` on an empty version capture).  The dispatcher catches
only the first. -/
inductive SpiceExn where
  | invalidFile
  | typeError
  | valueError
deriving DecidableEq

/-- The per-group transform step of SPICEFilePath._extract_parts: the type
capture is translated through _SPICE_TYPE_MAPPING (an unknown token becomes
None), the version capture through `int` (raising TypeError on None and
ValueError on the empty string), every other capture is kept as matched. -/
def transformEntry (k : String) (v : Option String) : Except SpiceExn (String × SpiceValue) :=
  if k = "type" then
    Except.ok (k, match v with
      | some raw =>
        (match lookupStr _SPICE_TYPE_MAPPING raw with
         | some sem => SpiceValue.str sem
         | none => SpiceValue.null)
      | none => SpiceValue.null)
  else if k = "version" then
    match v with
    | none => Except.error SpiceExn.typeError
    | some s =>
      if s = "" then Except.error SpiceExn.valueError
      else Except.ok (k, SpiceValue.int (charsToNat s.data))
  else
    Except.ok (k, match v with
      | some s => SpiceValue.str s
      | none => SpiceValue.null)

/-- The transform loop of SPICEFilePath._extract_parts over the groupdict. -/
def applyTransforms : SpiceGd → Except SpiceExn SpiceMetadata
  | [] => Except.ok []
  | (k, v) :: rest =>
    match transformEntry k v with
    | Except.error e => Except.error e
    | Except.ok kv =>
      match applyTransforms rest with
      | Except.error e => Except.error e
      | Except.ok m => Except.ok (kv :: m)

/-- A constructed SPICEFilePath object: the original filename and the
transformed metadata dictionary. -/
structure SPICEFilePath where
  filename : String
  spice_metadata : SpiceMetadata
deriving DecidableEq

/-- SPICEFilePath construction (`__init__` plus extract_filename_components):
lower-case the final path component, try the seven patterns in order, raise
InvalidSPICEFileError when none matches, otherwise run the transforms (which
may raise TypeError or ValueError past the constructor). -/
def SPICEFilePath.fromFilename (filename : String) : Except SpiceExn SPICEFilePath :=
  match spiceFirstMatch (asciiLower (pathName filename)).data with
  | none => Except.error SpiceExn.invalidFile
  | some gd =>
    match applyTransforms gd with
    | Except.error e => Except.error e
    | Except.ok md => Except.ok ⟨filename, md⟩

/-- SPICEFilePath.construct_path:
`<data_dir>/spice/<subdirectory>/<filename>` where the subdirectory is
`_SPICE_DIR_MAPPING[metadata["type"]]`; `none` models the KeyError raised
when the type value is not a key of the table (in particular when it is
None). -/
def SPICEFilePath.construct_path (dataDir : List String) (p : SPICEFilePath) : Option (List String) :=
  match lookupKey "type" p.spice_metadata with
  | some (SpiceValue.str t) =>
    (match lookupStr _SPICE_DIR_MAPPING t with
     | some sub => some (dataDir ++ ["spice", sub, p.filename])
     | none => none)
  | _ => none

/- ===================== Grammar dispatcher ===================== -/

/-- The typed path object returned by generate_imap_file_path. -/
inductive GeneratedPath where
  | spice (p : SPICEFilePath)
  | science (p : ScienceFilePath)
  | ancillary (p : AncillaryFilePath)
deriving DecidableEq

/-- The message of the combined ValueError of generate_imap_file_path
(reproduced verbatim from the source, including its missing space). -/
def combinedMessage (filename : String) : String :=
  "Invalid file type for " ++ filename ++ ". It does not match" ++
    "Spice, Science or Ancillary file formats"

/-- The exceptions generate_imap_file_path can propagate: the combined
ValueError when all three conventions reject the filename, or an uncaught
TypeError/ValueError escaping the SPICE attempt. -/
inductive DispatchError where
  | typeError
  | valueError
  | combined (msg : String)
deriving DecidableEq

/-- generate_imap_file_path: try SPICE (catching only InvalidSPICEFileError),
then Science (catching InvalidScienceFileError), then Ancillary (catching
InvalidAncillaryFileError), and raise the combined ValueError when all three
fail. -/
def generate_imap_file_path (filename : String) : Except DispatchError GeneratedPath :=
  match SPICEFilePath.fromFilename filename with
  | Except.ok p => Except.ok (GeneratedPath.spice p)
  | Except.error SpiceExn.typeError => Except.error DispatchError.typeError
  | Except.error SpiceExn.valueError => Except.error DispatchError.valueError
  | Except.error SpiceExn.invalidFile =>
    match ScienceFilePath.fromFilename filename with
    | Except.ok p => Except.ok (GeneratedPath.science p)
    | Except.error _ =>
      match AncillaryFilePath.fromFilename filename with
      | Except.ok p => Except.ok (GeneratedPath.ancillary p)
      | Except.error _ => Except.error (DispatchError.combined (combinedMessage filename))

/- ===================== Claim theorems ===================== -/

/-- C1: generate_imap_file_path attempts the grammars in the fixed order
SPICE, Science, Ancillary; it returns the first successfully constructed
typed file-path object, and it raises the combined error naming all three
conventions exactly when the SPICE, Science and Ancillary constructors all
raise their respective invalid-file errors; the science and ancillary error
type quantified over here covers both the pattern-mismatch and the
post-match-validation causes, which the dispatcher treats identically. -/
theorem C1_dispatcher_first_success (f : String) :
    (∀ p, SPICEFilePath.fromFilename f = Except.ok p →
      generate_imap_file_path f = Except.ok (GeneratedPath.spice p)) ∧
    (∀ p, SPICEFilePath.fromFilename f = Except.error SpiceExn.invalidFile →
      ScienceFilePath.fromFilename f = Except.ok p →
      generate_imap_file_path f = Except.ok (GeneratedPath.science p)) ∧
    (∀ e p, SPICEFilePath.fromFilename f = Except.error SpiceExn.invalidFile →
      ScienceFilePath.fromFilename f = Except.error e →
      AncillaryFilePath.fromFilename f = Except.ok p →
      generate_imap_file_path f = Except.ok (GeneratedPath.ancillary p)) ∧
    (generate_imap_file_path f = Except.error (DispatchError.combined (combinedMessage f)) ↔
      (SPICEFilePath.fromFilename f = Except.error SpiceExn.invalidFile ∧
       (∃ e, ScienceFilePath.fromFilename f = Except.error e) ∧
       (∃ e, AncillaryFilePath.fromFilename f = Except.error e))) := by
  refine ⟨?_, ?_, ?_, ?_⟩
  · intro p h1
    simp [generate_imap_file_path, h1]
  · intro p h1 h2
    simp [generate_imap_file_path, h1, h2]
  · intro e p h1 h2 h3
    simp [generate_imap_file_path, h1, h2, h3]
  · cases hs : SPICEFilePath.fromFilename f with
    | ok p => simp [generate_imap_file_path, hs]
    | error e =>
      cases e with
      | typeError => simp [generate_imap_file_path, hs]
      | valueError => simp [generate_imap_file_path, hs]
      | invalidFile =>
        cases hc : ScienceFilePath.fromFilename f with
        | ok p => simp [generate_imap_file_path, hs, hc]
        | error e1 =>
          cases ha : AncillaryFilePath.fromFilename f with
          | ok p => simp [generate_imap_file_path, hs, hc, ha]
          | error e2 => simp [generate_imap_file_path, hs, hc, ha]

theorem C1_dispatcher_first_success_witness :
    generate_imap_file_path "imap_mag_l1a_burst_20210101_v001.cdf" =
      Except.ok (GeneratedPath.science (ScienceFilePath.ofComponents
        "imap_mag_l1a_burst_20210101_v001.cdf"
        ⟨"imap", "mag", "l1a", "burst", "20210101", none, "v001", "cdf"⟩)) ∧
    generate_imap_file_path "foo.bar" =
      Except.error (DispatchError.combined (combinedMessage "foo.bar")) :=
  ⟨(C1_dispatcher_first_success "imap_mag_l1a_burst_20210101_v001.cdf").2.1 _
      (by decide) (by decide),
   (C1_dispatcher_first_success "foo.bar").2.2.2.mpr
      ⟨by decide, ⟨ScienceError.patternMismatch, by decide⟩,
       ⟨AncillaryError.patternMismatch, by decide⟩⟩⟩

/-- C2 (code bug): a filename matching the spacecraft-ephemeris grammar whose
raw type token `taco` is not a key of _SPICE_TYPE_MAPPING nevertheless
constructs successfully — the unknown token is mapped to None inside the
metadata dictionary and the None-check of `__init__` looks only at the
dictionary itself, so no InvalidSPICEFileError is raised, contradicting the
claim and test_spice_invalid_dates. -/
theorem C2_unknown_type_constructs :
    SPICEFilePath.fromFilename "imap_taco_20251320_20260220_v01.bsp" =
      Except.ok ⟨"imap_taco_20251320_20260220_v01.bsp",
        [("mission", SpiceValue.str "imap"), ("type", SpiceValue.null),
         ("start_date", SpiceValue.str "20251320"),
         ("end_date", SpiceValue.str "20260220"),
         ("version", SpiceValue.int 1), ("extension", SpiceValue.str "bsp")]⟩ := by
  decide

/-- C3 (code bug): SPICE filenames with an out-of-range day-of-year (410) or
an out-of-range calendar month (13) construct successfully — no grammar or
transform range-checks these fields — contradicting the claim and
test_spice_invalid_dates. -/
theorem C3_out_of_range_dates_construct :
    SPICEFilePath.fromFilename "imap_2025_032_2025_410_003.ah.bc" =
      Except.ok ⟨"imap_2025_032_2025_410_003.ah.bc",
        [("mission", SpiceValue.str "imap"), ("start_year", SpiceValue.str "2025"),
         ("start_doy", SpiceValue.str "032"), ("end_year", SpiceValue.str "2025"),
         ("end_doy", SpiceValue.str "410"), ("version", SpiceValue.int 3),
         ("type", SpiceValue.str "attitude_history")]⟩ ∧
    SPICEFilePath.fromFilename "imap_90days_20251320_20260220_v01.bsp" =
      Except.ok ⟨"imap_90days_20251320_20260220_v01.bsp",
        [("mission", SpiceValue.str "imap"), ("type", SpiceValue.str "ephemeris_90days"),
         ("start_date", SpiceValue.str "20251320"),
         ("end_date", SpiceValue.str "20260220"),
         ("version", SpiceValue.int 1), ("extension", SpiceValue.str "bsp")]⟩ := by
  exact ⟨by decide, by decide⟩

/-- C4 (code bug): of the numeric fields of a parsed SPICE filename only the
version capture is converted to an integer; the start/end year and
day-of-year captures stay strings ("2025", "032", "034"), contradicting the
claim and test_spice_extract_parts, which compares them with the integers
2025, 32 and 34. -/
theorem C4_numeric_fields_remain_strings :
    SPICEFilePath.fromFilename "imap_2025_032_2025_034_003.ah.bc" =
      Except.ok ⟨"imap_2025_032_2025_034_003.ah.bc",
        [("mission", SpiceValue.str "imap"), ("start_year", SpiceValue.str "2025"),
         ("start_doy", SpiceValue.str "032"), ("end_year", SpiceValue.str "2025"),
         ("end_doy", SpiceValue.str "034"), ("version", SpiceValue.int 3),
         ("type", SpiceValue.str "attitude_history")]⟩ ∧
    lookupKey "start_doy"
      [("mission", SpiceValue.str "imap"), ("start_year", SpiceValue.str "2025"),
       ("start_doy", SpiceValue.str "032"), ("end_year", SpiceValue.str "2025"),
       ("end_doy", SpiceValue.str "034"), ("version", SpiceValue.int 3),
       ("type", SpiceValue.str "attitude_history")] ≠ some (SpiceValue.int 32) := by
  exact ⟨by decide, by decide⟩

/-- C10: when the first of the seven SPICE patterns that matches is the
spacecraft-ephemeris one and its optional version group did not participate
in the match, the transform step evaluates `int(None)` and raises TypeError
rather than InvalidSPICEFileError, and generate_imap_file_path — which
catches only InvalidSPICEFileError around the SPICE attempt — propagates the
TypeError instead of falling through to the Science and Ancillary grammars. -/
theorem C10_missing_version_typeerror (f ty sd ed : String) :
    p1parse (asciiLower (pathName f)).data = none →
    p2parse (asciiLower (pathName f)).data = none →
    p3parse (asciiLower (pathName f)).data = some (gdP3 ty sd ed none) →
    SPICEFilePath.fromFilename f = Except.error SpiceExn.typeError ∧
    generate_imap_file_path f = Except.error DispatchError.typeError := by
  intro h1 h2 h3
  have hfm : spiceFirstMatch (asciiLower (pathName f)).data = some (gdP3 ty sd ed none) := by
    simp [spiceFirstMatch, h1, h2, h3]
  have happ : applyTransforms (gdP3 ty sd ed none) = Except.error SpiceExn.typeError := by
    simp [applyTransforms, gdP3, transformEntry]
  have hctor : SPICEFilePath.fromFilename f = Except.error SpiceExn.typeError := by
    simp [SPICEFilePath.fromFilename, hfm, happ]
  exact ⟨hctor, by simp [generate_imap_file_path, hctor]⟩

theorem C10_missing_version_typeerror_witness :
    SPICEFilePath.fromFilename "imap_recon_20251120_20260220.bsp" =
      Except.error SpiceExn.typeError ∧
    generate_imap_file_path "imap_recon_20251120_20260220.bsp" =
      Except.error DispatchError.typeError :=
  C10_missing_version_typeerror "imap_recon_20251120_20260220.bsp" "recon" "20251120"
    "20260220" (by decide) (by decide) (by decide)

/-- If the extension pairing condition of validate_filename holds, the
violation list is nonempty. -/
theorem validate_ne_nil_of_ext {c : ScienceComponents}
    (hc : c.extension ∉ VALID_FILE_EXTENSION ∨
      (c.data_level = "l0" ∧ c.extension ≠ "pkts") ∨
      (c.data_level ≠ "l0" ∧ c.extension ≠ "cdf")) :
    ScienceFilePath.validate_filename c ≠ [] := by
  unfold ScienceFilePath.validate_filename
  rw [if_pos hc]
  simp

/-- If validate_filename reports no violation, the extension pairing
condition is false. -/
theorem validate_nil_ext {c : ScienceComponents}
    (hv : ScienceFilePath.validate_filename c = []) :
    ¬(c.extension ∉ VALID_FILE_EXTENSION ∨
      (c.data_level = "l0" ∧ c.extension ≠ "pkts") ∨
      (c.data_level ≠ "l0" ∧ c.extension ≠ "cdf")) := by
  intro hc
  exact validate_ne_nil_of_ext hc hv

/-- C5: on every filename on which science construction succeeds the
extension is `pkts` exactly when the data level is `l0` and `cdf` exactly
when it is not; and whenever the science pattern matched but the
extension/data-level pairing is violated, construction fails with the
validation error. -/
theorem C5_extension_level_pairing (f : String) :
    (∀ p, ScienceFilePath.fromFilename f = Except.ok p →
      ((p.extension = "pkts" ↔ p.data_level = "l0") ∧
       (p.extension = "cdf" ↔ p.data_level ≠ "l0"))) ∧
    (∀ c, ScienceFilePath.extract_filename_components f = some c →
      ((c.data_level = "l0" ∧ c.extension ≠ "pkts") ∨
       (c.data_level ≠ "l0" ∧ c.extension ≠ "cdf")) →
      ScienceFilePath.fromFilename f =
        Except.error (ScienceError.validationFailed (ScienceFilePath.validate_filename c))) := by
  constructor
  · intro p h
    unfold ScienceFilePath.fromFilename at h
    split at h
    · exact absurd h (by simp)
    · rename_i c he
      split at h
      · rename_i hv
        have hp : ScienceFilePath.ofComponents f c = p := by
          simpa using h
        subst hp
        have hcond := validate_nil_ext hv
        push_neg at hcond
        obtain ⟨-, h2, h3⟩ := hcond
        simp only [ScienceFilePath.ofComponents]
        refine ⟨⟨?_, ?_⟩, ⟨?_, ?_⟩⟩
        · intro hpk
          by_contra hne
          rw [h3 hne] at hpk
          exact absurd hpk (by decide)
        · intro hl0
          exact h2 hl0
        · intro hcdf hl0
          rw [h2 hl0] at hcdf
          exact absurd hcdf (by decide)
        · intro hne
          exact h3 hne
      · exact absurd h (by simp)
  · intro c he hbad
    have hne := validate_ne_nil_of_ext (Or.inr hbad)
    unfold ScienceFilePath.fromFilename
    rw [he]
    show (match ScienceFilePath.validate_filename c with
      | [] => Except.ok (ScienceFilePath.ofComponents f c)
      | v => Except.error (ScienceError.validationFailed v)) =
      Except.error (ScienceError.validationFailed (ScienceFilePath.validate_filename c))
    cases hv : ScienceFilePath.validate_filename c with
    | nil => exact absurd hv hne
    | cons x xs => rfl

theorem C5_extension_level_pairing_witness :
    ((ScienceFilePath.ofComponents "imap_mag_l1a_burst_20210101_v001.cdf"
        ⟨"imap", "mag", "l1a", "burst", "20210101", none, "v001", "cdf"⟩).extension = "pkts" ↔
     (ScienceFilePath.ofComponents "imap_mag_l1a_burst_20210101_v001.cdf"
        ⟨"imap", "mag", "l1a", "burst", "20210101", none, "v001", "cdf"⟩).data_level = "l0") ∧
    ScienceFilePath.fromFilename "imap_mag_l1a_burst_20210101_v001.pkts" =
      Except.error (ScienceError.validationFailed (ScienceFilePath.validate_filename
        ⟨"imap", "mag", "l1a", "burst", "20210101", none, "v001", "pkts"⟩)) :=
  ⟨((C5_extension_level_pairing "imap_mag_l1a_burst_20210101_v001.cdf").1 _ (by decide)).1,
   (C5_extension_level_pairing "imap_mag_l1a_burst_20210101_v001.pkts").2 _ (by decide)
     (Or.inr ⟨by decide, by decide⟩)⟩

/-- A successful association-list lookup returns one of the stored values. -/
theorem lookupStr_mem {l : List (String × String)} {k v : String}
    (h : lookupStr l k = some v) : v ∈ l.map Prod.snd := by
  induction l with
  | nil => exact absurd h (by simp [lookupStr])
  | cons a rest ih =>
    obtain ⟨a1, a2⟩ := a
    unfold lookupStr at h
    by_cases hk : a1 = k
    · rw [if_pos hk] at h
      simp at h
      simp [h]
    · rw [if_neg hk] at h
      simp [ih h]

/-- Every semantic type name produced by _SPICE_TYPE_MAPPING has a storage
subdirectory in _SPICE_DIR_MAPPING. -/
theorem spice_type_range_has_dir :
    ∀ t ∈ _SPICE_TYPE_MAPPING.map Prod.snd, (lookupStr _SPICE_DIR_MAPPING t).isSome = true := by
  decide

/-- If the transformed metadata holds a string under the "type" key, that
string came out of _SPICE_TYPE_MAPPING. -/
theorem applyTransforms_type_mem {gd : SpiceGd} {md : SpiceMetadata} {t : String}
    (h : applyTransforms gd = Except.ok md)
    (ht : lookupKey "type" md = some (SpiceValue.str t)) :
    t ∈ _SPICE_TYPE_MAPPING.map Prod.snd := by
  induction gd generalizing md with
  | nil =>
    unfold applyTransforms at h
    simp at h
    subst h
    exact absurd ht (by simp [lookupKey])
  | cons kv rest ih =>
    obtain ⟨k, v⟩ := kv
    unfold applyTransforms at h
    cases htr : transformEntry k v with
    | error e => rw [htr] at h; exact absurd h (by simp)
    | ok kv2 =>
      rw [htr] at h
      cases happ : applyTransforms rest with
      | error e => rw [happ] at h; exact absurd h (by simp)
      | ok m =>
        rw [happ] at h
        simp at h
        subst h
        unfold transformEntry at htr
        by_cases hk : k = "type"
        · rw [if_pos hk] at htr
          simp at htr
          rw [← htr] at ht
          rw [hk] at ht
          unfold lookupKey at ht
          rw [if_pos rfl] at ht
          simp at ht
          cases v with
          | none => exact absurd ht (by simp)
          | some raw =>
            simp at ht
            cases hlk : lookupStr _SPICE_TYPE_MAPPING raw with
            | none => rw [hlk] at ht; exact absurd ht (by simp)
            | some sem =>
              rw [hlk] at ht
              simp at ht
              rw [← ht]
              exact lookupStr_mem hlk
        · rw [if_neg hk] at htr
          have hfst : kv2.1 = k := by
            by_cases hk2 : k = "version"
            · rw [if_pos hk2] at htr
              split at htr
              · exact absurd htr (by simp)
              · split at htr
                · exact absurd htr (by simp)
                · simp at htr
                  rw [← htr]
            · rw [if_neg hk2] at htr
              simp at htr
              rw [← htr]
          apply ih happ
          obtain ⟨k2, v2⟩ := kv2
          simp at hfst
          subst hfst
          unfold lookupKey at ht
          rw [if_neg hk] at ht
          exact ht

/-- C7: for every successfully constructed SPICE file path whose metadata
carries a resolved semantic type, construct_path is
`<data_dir>/spice/<subdirectory>/<original filename>` with the subdirectory
looked up in _SPICE_DIR_MAPPING; concretely,
"imap_0000_000_0000_000_01.ap.bc" is stored under spice/ck, and
"naif0012.tls" parses with semantic type leapseconds and version 12. -/
theorem C7_spice_construct_path (dataDir : List String) (f : String) :
    (∀ p t, SPICEFilePath.fromFilename f = Except.ok p →
      lookupKey "type" p.spice_metadata = some (SpiceValue.str t) →
      lookupStr _SPICE_DIR_MAPPING t ≠ none ∧
      SPICEFilePath.construct_path dataDir p =
        (lookupStr _SPICE_DIR_MAPPING t).map
          (fun sub => dataDir ++ ["spice", sub, p.filename]) ∧
      p.filename = f) ∧
    SPICEFilePath.fromFilename "imap_0000_000_0000_000_01.ap.bc" =
      Except.ok ⟨"imap_0000_000_0000_000_01.ap.bc",
        [("mission", SpiceValue.str "imap"), ("start_year", SpiceValue.str "0000"),
         ("start_doy", SpiceValue.str "000"), ("end_year", SpiceValue.str "0000"),
         ("end_doy", SpiceValue.str "000"), ("version", SpiceValue.int 1),
         ("type", SpiceValue.str "attitude_predict")]⟩ ∧
    SPICEFilePath.construct_path dataDir
      ⟨"imap_0000_000_0000_000_01.ap.bc",
        [("mission", SpiceValue.str "imap"), ("start_year", SpiceValue.str "0000"),
         ("start_doy", SpiceValue.str "000"), ("end_year", SpiceValue.str "0000"),
         ("end_doy", SpiceValue.str "000"), ("version", SpiceValue.int 1),
         ("type", SpiceValue.str "attitude_predict")]⟩ =
      some (dataDir ++ ["spice", "ck", "imap_0000_000_0000_000_01.ap.bc"]) ∧
    SPICEFilePath.fromFilename "naif0012.tls" =
      Except.ok ⟨"naif0012.tls",
        [("type", SpiceValue.str "leapseconds"), ("version", SpiceValue.int 12),
         ("extension", SpiceValue.str "tls")]⟩ := by
  refine ⟨?_, by decide, ?_, by decide⟩
  · intro p t h ht
    unfold SPICEFilePath.fromFilename at h
    split at h
    · exact absurd h (by simp)
    · rename_i gd hfm
      split at h
      · exact absurd h (by simp)
      · rename_i md happ
        have hp : (⟨f, md⟩ : SPICEFilePath) = p := by
          simpa using h
        subst hp
        simp only at ht
        have hmem : t ∈ _SPICE_TYPE_MAPPING.map Prod.snd := applyTransforms_type_mem happ ht
        have hsome := spice_type_range_has_dir t hmem
        cases hlk : lookupStr _SPICE_DIR_MAPPING t with
        | none => rw [hlk] at hsome; exact absurd hsome (by simp)
        | some sub =>
          refine ⟨by simp [hlk], ?_, rfl⟩
          simp [SPICEFilePath.construct_path, ht, hlk]
  · simp [SPICEFilePath.construct_path, lookupKey, lookupStr, _SPICE_DIR_MAPPING]

theorem C7_spice_construct_path_witness :
    lookupStr _SPICE_DIR_MAPPING "leapseconds" ≠ none ∧
    SPICEFilePath.construct_path []
      ⟨"naif0012.tls",
        [("type", SpiceValue.str "leapseconds"), ("version", SpiceValue.int 12),
         ("extension", SpiceValue.str "tls")]⟩ =
      (lookupStr _SPICE_DIR_MAPPING "leapseconds").map
        (fun sub => [] ++ ["spice", sub, "naif0012.tls"]) ∧
    (⟨"naif0012.tls",
        [("type", SpiceValue.str "leapseconds"), ("version", SpiceValue.int 12),
         ("extension", SpiceValue.str "tls")]⟩ : SPICEFilePath).filename = "naif0012.tls" :=
  (C7_spice_construct_path [] "naif0012.tls").1 _ "leapseconds" (by decide) (by decide)

/-- The ancillary pattern only ever captures the literal mission "imap". -/
theorem parseAncillary_mission {cs : List Char} {c : AncillaryComponents}
    (h : parseAncillary cs = some c) : c.mission = "imap" := by
  unfold parseAncillary at h
  repeat' split at h
  all_goals first
    | exact Option.noConfusion h
    | (rw [Option.map_eq_some'] at h; obtain ⟨q, hq, rfl⟩ := h; rfl)

/-- C8: every successfully constructed ancillary file path has canonical path
`<data_dir>/imap/ancillary/<instrument>/<original filename>` — a flat layout
whose components are only the mission literal, "ancillary", the instrument
and the filename, with no date-derived subdirectories (in contrast to the
year/month buckets of ScienceFilePath.construct_path). -/
theorem C8_ancillary_construct_path (dataDir : List String) (f : String) :
    ∀ p, AncillaryFilePath.fromFilename f = Except.ok p →
      AncillaryFilePath.construct_path dataDir p =
        dataDir ++ ["imap", "ancillary", p.instrument, p.filename] ∧
      p.filename = f := by
  intro p h
  unfold AncillaryFilePath.fromFilename at h
  split at h
  · exact absurd h (by simp)
  · rename_i c he
    split at h
    · have hp : AncillaryFilePath.ofComponents f c = p := by simpa using h
      subst hp
      have hm : c.mission = "imap" :=
        parseAncillary_mission (by simpa [AncillaryFilePath.extract_filename_components] using he)
      exact ⟨by simp [AncillaryFilePath.construct_path, AncillaryFilePath.ofComponents, hm], rfl⟩
    · exact absurd h (by simp)

theorem C8_ancillary_construct_path_witness :
    AncillaryFilePath.construct_path ["data"]
      (AncillaryFilePath.ofComponents "imap_mag_test_20210101_20210102_v001.csv"
        ⟨"imap", "mag", "test", "20210101", some "20210102", "v001", "csv"⟩) =
      ["data"] ++ ["imap", "ancillary",
        (AncillaryFilePath.ofComponents "imap_mag_test_20210101_20210102_v001.csv"
          ⟨"imap", "mag", "test", "20210101", some "20210102", "v001", "csv"⟩).instrument,
        (AncillaryFilePath.ofComponents "imap_mag_test_20210101_20210102_v001.csv"
          ⟨"imap", "mag", "test", "20210101", some "20210102", "v001", "csv"⟩).filename] ∧
    (AncillaryFilePath.ofComponents "imap_mag_test_20210101_20210102_v001.csv"
      ⟨"imap", "mag", "test", "20210101", some "20210102", "v001", "csv"⟩).filename =
      "imap_mag_test_20210101_20210102_v001.csv" :=
  C8_ancillary_construct_path ["data"] "imap_mag_test_20210101_20210102_v001.csv" _ (by decide)

/- ============ Supporting lemmas for the round-trip claims ============ -/

/-- Appending strings appends their character lists. -/
theorem string_data_append (s t : String) : (s ++ t).data = s.data ++ t.data := by
  cases s; cases t; rfl

/-- Rebuilding a string from its character list is the identity. -/
theorem string_mk_data (s : String) : String.mk s.data = s := by
  cases s; rfl

/-- A nonempty string has a nonempty character list. -/
theorem string_ne_empty_of_data {s : String} (h : s.data ≠ []) : s ≠ "" := by
  intro he
  subst he
  exact h rfl

theorem expectLit_append (p r : List Char) : expectLit p (p ++ r) = some r := by
  induction p with
  | nil => rfl
  | cons c ps ih => simp [expectLit, ih]

theorem splitAtUnderscore_append {f : List Char} (r : List Char)
    (hf : ∀ x ∈ f, x ≠ '_') : splitAtUnderscore (f ++ '_' :: r) = some (f, r) := by
  induction f with
  | nil => simp [splitAtUnderscore]
  | cons c cs ih =>
    have hc : c ≠ '_' := hf c (by simp)
    have ih2 := ih (fun x hx => hf x (by simp [hx]))
    simp [splitAtUnderscore, hc, ih2]

theorem takeNDigits_append {d : List Char} {n : Nat} (r : List Char)
    (hlen : d.length = n) (hd : ∀ x ∈ d, x.isDigit) :
    takeNDigits n (d ++ r) = some (d, r) := by
  induction d generalizing n with
  | nil =>
    subst hlen
    rfl
  | cons c cs ih =>
    subst hlen
    have hc : c.isDigit := hd c (by simp)
    have ih2 := ih (n := cs.length) rfl (fun x hx => hd x (by simp [hx]))
    simp [takeNDigits, hc, ih2]

theorem splitOnSlash_no_slash (l : List Char) (h : ∀ x ∈ l, x ≠ '/') :
    splitOnSlash l = [l] := by
  induction l with
  | nil => rfl
  | cons c cs ih =>
    have hc : c ≠ '/' := h c (by simp)
    have ih2 := ih (fun x hx => h x (by simp [hx]))
    simp [splitOnSlash, hc, ih2]

/-- On a slash-free (and nonempty, non-dot) name, pathlib name extraction is
the identity. -/
theorem pathName_eq_self {s : String} (hne : s.data ≠ []) (hdot : s.data ≠ ['.'])
    (h : ∀ x ∈ s.data, x ≠ '/') : pathName s = s := by
  unfold pathName
  rw [splitOnSlash_no_slash s.data h]
  have hdec : decide (s.data ≠ [] ∧ s.data ≠ ['.']) = true := by
    simp [hne, hdot]
  simp [List.filter, hdec, string_mk_data]

/-- An ASCII digit is neither an underscore nor a slash. -/
theorem digit_ne_special {x : Char} (h : x.isDigit = true) : x ≠ '_' ∧ x ≠ '/' := by
  constructor <;> (intro hx; subst hx; exact absurd h (by decide))

/-- Little-endian value of a digit list. -/
def valRev : List Char → Nat
  | [] => 0
  | c :: cs => digitVal c + 10 * valRev cs

theorem charsToNat_reverse (l : List Char) : charsToNat l.reverse = valRev l := by
  have key : ∀ xs : List Char,
      xs.foldr (fun x y => 10 * y + (x.toNat - 48)) 0 = valRev xs := by
    intro xs
    induction xs with
    | nil => rfl
    | cons c cs ih =>
      simp only [List.foldr_cons, valRev, ih, digitVal]
      omega
  unfold charsToNat
  rw [List.foldl_reverse]
  exact key l

theorem charsToNat_replicate_zero (k : Nat) (ds : List Char) :
    charsToNat (List.replicate k '0' ++ ds) = charsToNat ds := by
  unfold charsToNat
  rw [List.foldl_append]
  have : List.foldl (fun a c => 10 * a + (c.toNat - 48)) 0 (List.replicate k '0') = 0 := by
    induction k with
    | zero => rfl
    | succ m ih =>
      rw [List.replicate_succ, List.foldl_cons]
      have h0 : (10 * 0 + ('0'.toNat - 48)) = 0 := by decide
      rw [h0]
      exact ih
  rw [this]

theorem ofNat_digit_isDigit {m : Nat} (hm : m < 10) :
    (Char.ofNat (48 + m)).isDigit = true := by
  interval_cases m <;> decide

theorem digitVal_ofNat {m : Nat} (hm : m < 10) : digitVal (Char.ofNat (48 + m)) = m := by
  interval_cases m <;> decide

theorem digitsRevAux_all_digits :
    ∀ fuel n, ∀ x ∈ digitsRevAux fuel n, x.isDigit = true := by
  intro fuel
  induction fuel with
  | zero => intro n x hx; exact absurd hx (by simp [digitsRevAux])
  | succ m ih =>
    intro n x hx
    unfold digitsRevAux at hx
    by_cases hn : n = 0
    · rw [if_pos hn] at hx
      exact absurd hx (by simp)
    · rw [if_neg hn] at hx
      rcases List.mem_cons.mp hx with h | h
      · subst h
        exact ofNat_digit_isDigit (Nat.mod_lt _ (by norm_num))
      · exact ih _ x h

theorem valRev_digitsRevAux : ∀ fuel n, n ≤ fuel → valRev (digitsRevAux fuel n) = n := by
  intro fuel
  induction fuel with
  | zero =>
    intro n hn
    interval_cases n
    rfl
  | succ m ih =>
    intro n hn
    unfold digitsRevAux
    by_cases h0 : n = 0
    · rw [if_pos h0, h0]
      rfl
    · rw [if_neg h0]
      have h10 : n % 10 < 10 := Nat.mod_lt _ (by norm_num)
      have hrec : n / 10 ≤ m := by
        have := Nat.div_lt_self (Nat.pos_of_ne_zero h0) (show 1 < 10 by norm_num)
        omega
      simp only [valRev, digitVal_ofNat h10, ih _ hrec]
      omega

theorem digitsRevAux_length_le :
    ∀ fuel n k, n < 10 ^ k → (digitsRevAux fuel n).length ≤ k := by
  intro fuel
  induction fuel with
  | zero => intro n k _; simp [digitsRevAux]
  | succ m ih =>
    intro n k h
    unfold digitsRevAux
    by_cases h0 : n = 0
    · simp [h0]
    · rw [if_neg h0]
      cases k with
      | zero =>
        simp at h
        exact absurd h h0
      | succ k2 =>
        simp only [List.length_cons]
        have hdiv : n / 10 < 10 ^ k2 := by
          have hpow : (10 : Nat) ^ (k2 + 1) = 10 ^ k2 * 10 := by ring
          rw [hpow] at h
          exact (Nat.div_lt_iff_lt_mul (by norm_num)).mpr h
        have := ih (n / 10) k2 hdiv
        omega

/-- For 0 < r < 100000, Python `f"{r:05d}"` is exactly five digit characters
whose integer value is r again. -/
theorem pad5_spec {r : Nat} (h1 : 0 < r) (h2 : r < 100000) :
    (pad5 r).length = 5 ∧ (∀ x ∈ pad5 r, x.isDigit = true) ∧ charsToNat (pad5 r) = r := by
  have hnc : natToChars r = (digitsRevOfNat r).reverse := by
    unfold natToChars
    rw [if_neg (Nat.pos_iff_ne_zero.mp h1)]
  have hlen : (natToChars r).length ≤ 5 := by
    rw [hnc, List.length_reverse]
    unfold digitsRevOfNat
    have h5 : (10 : Nat) ^ 5 = 100000 := by norm_num
    exact digitsRevAux_length_le r r 5 (by omega)
  refine ⟨?_, ?_, ?_⟩
  · unfold pad5
    rw [List.length_append, List.length_replicate]
    omega
  · intro x hx
    unfold pad5 at hx
    rcases List.mem_append.mp hx with h | h
    · rw [List.eq_of_mem_replicate h]
      decide
    · rw [hnc, List.mem_reverse] at h
      exact digitsRevAux_all_digits r r x h
  · unfold pad5
    rw [charsToNat_replicate_zero, hnc]
    unfold digitsRevOfNat
    rw [charsToNat_reverse]
    exact valRev_digitsRevAux r r le_rfl

theorem parseRepointOpt_none_build (r : List Char) :
    parseRepointOpt ('_' :: r) = some (none, r) := rfl

theorem parseRepointOpt_some_build (p5 r : List Char)
    (h5 : p5.length = 5) (hd : ∀ x ∈ p5, x.isDigit = true) :
    parseRepointOpt ('-' :: 'r' :: 'e' :: 'p' :: 'o' :: 'i' :: 'n' :: 't' :: (p5 ++ '_' :: r)) =
      some (some (charsToNat p5), r) := by
  have he : expectLit ['r', 'e', 'p', 'o', 'i', 'n', 't']
      ('r' :: 'e' :: 'p' :: 'o' :: 'i' :: 'n' :: 't' :: (p5 ++ '_' :: r)) = some (p5 ++ '_' :: r) := by
    simpa using expectLit_append ['r', 'e', 'p', 'o', 'i', 'n', 't'] (p5 ++ '_' :: r)
  have ht : takeNDigits 5 (p5 ++ '_' :: r) = some (p5, '_' :: r) :=
    takeNDigits_append _ h5 hd
  simp [parseRepointOpt, he, ht]

theorem parseVer3_build (a b c : Char) (r : List Char)
    (ha : a.isDigit = true) (hb : b.isDigit = true) (hc : c.isDigit = true) :
    parseVer3 ('v' :: a :: b :: c :: r) = some (String.mk ['v', a, b, c], r) := by
  simp [parseVer3, ha, hb, hc]

/-- The science pattern accepts a filename assembled from well-formed parts
and recovers exactly those parts.  The date-repoint region and the extension
are abstracted by the hypotheses on `RP` and `E`. -/
theorem parseScience_build (i l d st RP E : List Char) (rep : Option Nat) (a b c : Char)
    (hi : i ≠ []) (hi2 : ∀ x ∈ i, x ≠ '_')
    (hl : l ≠ []) (hl2 : ∀ x ∈ l, x ≠ '_')
    (hd : d ≠ []) (hd2 : ∀ x ∈ d, x ≠ '_')
    (hst : st.length = 8) (hst2 : ∀ x ∈ st, x.isDigit = true)
    (ha : a.isDigit = true) (hb : b.isDigit = true) (hc : c.isDigit = true)
    (hRP : parseRepointOpt (RP ++ '_' :: 'v' :: a :: b :: c :: '.' :: E) =
      some (rep, 'v' :: a :: b :: c :: '.' :: E))
    (hE : parseSciExt E = some (String.mk E, [])) :
    parseScience ('i' :: 'm' :: 'a' :: 'p' :: '_' ::
        (i ++ '_' :: (l ++ '_' :: (d ++ '_' ::
          (st ++ (RP ++ '_' :: 'v' :: a :: b :: c :: '.' :: E)))))) =
      some ⟨"imap", String.mk i, String.mk l, String.mk d, String.mk st, rep,
        String.mk ['v', a, b, c], String.mk E⟩ := by
  have e1 : expectLit ['i', 'm', 'a', 'p', '_']
      ('i' :: 'm' :: 'a' :: 'p' :: '_' ::
        (i ++ '_' :: (l ++ '_' :: (d ++ '_' ::
          (st ++ (RP ++ '_' :: 'v' :: a :: b :: c :: '.' :: E)))))) =
      some (i ++ '_' :: (l ++ '_' :: (d ++ '_' ::
        (st ++ (RP ++ '_' :: 'v' :: a :: b :: c :: '.' :: E))))) := by
    simpa using expectLit_append ['i', 'm', 'a', 'p', '_']
      (i ++ '_' :: (l ++ '_' :: (d ++ '_' ::
        (st ++ (RP ++ '_' :: 'v' :: a :: b :: c :: '.' :: E)))))
  have e2 := splitAtUnderscore_append
    (l ++ '_' :: (d ++ '_' :: (st ++ (RP ++ '_' :: 'v' :: a :: b :: c :: '.' :: E)))) hi2
  have e3 := splitAtUnderscore_append
    (d ++ '_' :: (st ++ (RP ++ '_' :: 'v' :: a :: b :: c :: '.' :: E))) hl2
  have e4 := splitAtUnderscore_append
    (st ++ (RP ++ '_' :: 'v' :: a :: b :: c :: '.' :: E)) hd2
  have e5 : takeNDigits 8 (st ++ (RP ++ '_' :: 'v' :: a :: b :: c :: '.' :: E)) =
      some (st, RP ++ '_' :: 'v' :: a :: b :: c :: '.' :: E) :=
    takeNDigits_append _ hst hst2
  have e6 := parseVer3_build a b c ('.' :: E) ha hb hc
  have e7 : expectChar '.' ('.' :: E) = some E := rfl
  simp [parseScience, e1, e2, e3, e4, e5, hRP, e6, e7, hE, endAnchor, hi, hl, hd]

/-- The instrument vocabulary consists of nonempty names free of underscores
and slashes. -/
theorem valid_instruments_chars :
    ∀ s ∈ VALID_INSTRUMENTS, s.data ≠ [] ∧ ∀ x ∈ s.data, x ≠ '_' ∧ x ≠ '/' := by
  decide

/-- The data-level vocabulary consists of nonempty names free of underscores
and slashes. -/
theorem valid_datalevels_chars :
    ∀ s ∈ VALID_DATALEVELS, s.data ≠ [] ∧ ∀ x ∈ s.data, x ≠ '_' ∧ x ≠ '/' := by
  decide

theorem versionFormatOk_shape {v : String} (h : versionFormatOk v = true) :
    ∃ a b c, v.data = ['v', a, b, c] ∧
      a.isDigit = true ∧ b.isDigit = true ∧ c.isDigit = true := by
  unfold versionFormatOk at h
  split at h
  · rename_i a b c heq
    refine ⟨a, b, c, heq, ?_, ?_, ?_⟩ <;> simp_all
  · exact absurd h (by simp)

/-- validate_filename reports nothing on components satisfying every check. -/
theorem validate_nil_of (c : ScienceComponents)
    (h1 : c.mission = "imap")
    (h2 : c.instrument ∈ VALID_INSTRUMENTS)
    (h3 : c.data_level ∈ VALID_DATALEVELS)
    (h4 : ImapFilePath.is_valid_date c.start_date = true)
    (h5 : versionFormatOk c.version = true)
    (h6 : (c.data_level = "l0" ∧ c.extension = "pkts") ∨
      (c.data_level ≠ "l0" ∧ c.extension = "cdf"))
    (h7 : c.descriptor ≠ "") :
    ScienceFilePath.validate_filename c = [] := by
  have hne : c.instrument ≠ "" := by
    intro he
    rw [he] at h2
    exact absurd h2 (by decide)
  have hne2 : c.data_level ≠ "" := by
    intro he
    rw [he] at h3
    exact absurd h3 (by decide)
  have hne3 : c.version ≠ "" := by
    intro he
    rw [he] at h5
    exact absurd h5 (by decide)
  have hne4 : c.start_date ≠ "" := by
    intro he
    rw [he] at h4
    exact absurd h4 (by decide)
  have hne5 : c.extension ≠ "" := by
    rcases h6 with ⟨-, he⟩ | ⟨-, he⟩ <;> (rw [he]; decide)
  have hm : c.mission ≠ "" := by rw [h1]; decide
  have hmiss : ¬(c.mission = "" ∨ c.instrument = "" ∨ c.data_level = "" ∨
      c.descriptor = "" ∨ c.start_date = "" ∨ c.version = "" ∨ c.extension = "") := by
    simp [hm, hne, hne2, h7, hne4, hne3, hne5]
  have hmok : ¬(c.mission ≠ "imap") := by simp [h1]
  have hext : ¬(c.extension ∉ VALID_FILE_EXTENSION ∨
      (c.data_level = "l0" ∧ c.extension ≠ "pkts") ∨
      (c.data_level ≠ "l0" ∧ c.extension ≠ "cdf")) := by
    rcases h6 with ⟨hl0, he⟩ | ⟨hl0, he⟩ <;>
      simp [he, hl0, VALID_FILE_EXTENSION]
  unfold ScienceFilePath.validate_filename
  rw [if_neg hmiss, if_neg hmok, if_pos h2, if_pos h3, if_pos h4, if_pos h5, if_neg hext]
  rfl

/-- Construction succeeds exactly as the extracted, validated components. -/
theorem fromFilename_eq_ok {filename : String} {c : ScienceComponents}
    (he : ScienceFilePath.extract_filename_components filename = some c)
    (hv : ScienceFilePath.validate_filename c = []) :
    ScienceFilePath.fromFilename filename =
      Except.ok (ScienceFilePath.ofComponents filename c) := by
  unfold ScienceFilePath.fromFilename
  rw [he]
  show (match ScienceFilePath.validate_filename c with
    | [] => Except.ok (ScienceFilePath.ofComponents filename c)
    | v => Except.error (ScienceError.validationFailed v)) = _
  rw [hv]

/-- Assembly step for the generate_from_inputs round trip: given the shape of
the built filename's character list and the regional hypotheses, construction
succeeds and returns exactly the input fields. -/
theorem generate_build (instrument data_level descriptor start_time version EXT : String)
    (repointing : Option Nat) (RP : List Char) (a b c : Char)
    (hi : instrument ∈ VALID_INSTRUMENTS)
    (hl : data_level ∈ VALID_DATALEVELS)
    (hd : descriptor.data ≠ [])
    (hdc : ∀ x ∈ descriptor.data, x ≠ '_' ∧ x ≠ '/')
    (hst8 : start_time.data.length = 8)
    (hstd : ∀ x ∈ start_time.data, x.isDigit = true)
    (hdate : ImapFilePath.is_valid_date start_time = true)
    (hv : version.data = ['v', a, b, c])
    (ha : a.isDigit = true) (hb : b.isDigit = true) (hc : c.isDigit = true)
    (hdata : (science_filename_from_inputs instrument data_level descriptor start_time
        version repointing).data =
      'i' :: 'm' :: 'a' :: 'p' :: '_' ::
        (instrument.data ++ '_' :: (data_level.data ++ '_' :: (descriptor.data ++ '_' ::
          (start_time.data ++ (RP ++ '_' :: 'v' :: a :: b :: c :: '.' :: EXT.data))))))
    (hRPslash : ∀ x ∈ RP, x ≠ '/')
    (hRP : parseRepointOpt (RP ++ '_' :: 'v' :: a :: b :: c :: '.' :: EXT.data) =
      some (repointing, 'v' :: a :: b :: c :: '.' :: EXT.data))
    (hE : parseSciExt EXT.data = some (String.mk EXT.data, []))
    (hEslash : ∀ x ∈ EXT.data, x ≠ '/')
    (hpair : (data_level = "l0" ∧ EXT = "pkts") ∨ (data_level ≠ "l0" ∧ EXT = "cdf")) :
    ScienceFilePath.fromFilename
        (science_filename_from_inputs instrument data_level descriptor start_time
          version repointing) =
      Except.ok ⟨science_filename_from_inputs instrument data_level descriptor start_time
          version repointing,
        "imap", instrument, data_level, descriptor, start_time, repointing, version, EXT⟩ := by
  obtain ⟨hine, hichars⟩ := valid_instruments_chars instrument hi
  obtain ⟨hlne, hlchars⟩ := valid_datalevels_chars data_level hl
  have hnoslash : ∀ x ∈ (science_filename_from_inputs instrument data_level descriptor
      start_time version repointing).data, x ≠ '/' := by
    rw [hdata]
    intro x hx
    rcases List.mem_cons.mp hx with rfl | hx
    · decide
    rcases List.mem_cons.mp hx with rfl | hx
    · decide
    rcases List.mem_cons.mp hx with rfl | hx
    · decide
    rcases List.mem_cons.mp hx with rfl | hx
    · decide
    rcases List.mem_cons.mp hx with rfl | hx
    · decide
    rcases List.mem_append.mp hx with hx | hx
    · exact (hichars x hx).2
    rcases List.mem_cons.mp hx with rfl | hx
    · decide
    rcases List.mem_append.mp hx with hx | hx
    · exact (hlchars x hx).2
    rcases List.mem_cons.mp hx with rfl | hx
    · decide
    rcases List.mem_append.mp hx with hx | hx
    · exact (hdc x hx).2
    rcases List.mem_cons.mp hx with rfl | hx
    · decide
    rcases List.mem_append.mp hx with hx | hx
    · exact (digit_ne_special (hstd x hx)).2
    rcases List.mem_append.mp hx with hx | hx
    · exact hRPslash x hx
    rcases List.mem_cons.mp hx with rfl | hx
    · decide
    rcases List.mem_cons.mp hx with rfl | hx
    · decide
    rcases List.mem_cons.mp hx with rfl | hx
    · exact (digit_ne_special ha).2
    rcases List.mem_cons.mp hx with rfl | hx
    · exact (digit_ne_special hb).2
    rcases List.mem_cons.mp hx with rfl | hx
    · exact (digit_ne_special hc).2
    rcases List.mem_cons.mp hx with rfl | hx
    · decide
    exact hEslash x hx
  have hFne : (science_filename_from_inputs instrument data_level descriptor start_time
      version repointing).data ≠ [] := by
    rw [hdata]; simp
  have hFdot : (science_filename_from_inputs instrument data_level descriptor start_time
      version repointing).data ≠ ['.'] := by
    rw [hdata]; simp
  have hpname := pathName_eq_self hFne hFdot hnoslash
  have hichars2 : ∀ x ∈ instrument.data, x ≠ '_' := fun x hx => (hichars x hx).1
  have hlchars2 : ∀ x ∈ data_level.data, x ≠ '_' := fun x hx => (hlchars x hx).1
  have hdchars2 : ∀ x ∈ descriptor.data, x ≠ '_' := fun x hx => (hdc x hx).1
  have hparse := parseScience_build instrument.data data_level.data descriptor.data
    start_time.data RP EXT.data repointing a b c
    hine hichars2 hlne hlchars2 hd hdchars2 hst8 hstd ha hb hc hRP hE
  rw [← hv] at hparse
  simp only [string_mk_data] at hparse
  have he : ScienceFilePath.extract_filename_components
      (science_filename_from_inputs instrument data_level descriptor start_time
        version repointing) =
      some ⟨"imap", instrument, data_level, descriptor, start_time, repointing,
        version, EXT⟩ := by
    unfold ScienceFilePath.extract_filename_components
    rw [hpname, hdata]
    exact hparse
  have hval : ScienceFilePath.validate_filename
      ⟨"imap", instrument, data_level, descriptor, start_time, repointing,
        version, EXT⟩ = [] := by
    apply validate_nil_of
    · rfl
    · exact hi
    · exact hl
    · exact hdate
    · show versionFormatOk version = true
      unfold versionFormatOk
      rw [hv]
      simp [ha, hb, hc]
    · exact hpair
    · exact string_ne_empty_of_data hd
  exact fromFilename_eq_ok he hval

theorem data_imap_lit : ("imap_" : String).data = ['i', 'm', 'a', 'p', '_'] := rfl
theorem data_us_lit : ("_" : String).data = ['_'] := rfl
theorem data_dot_lit : ("." : String).data = ['.'] := rfl
theorem data_empty_lit : ("" : String).data = [] := rfl
theorem data_repoint_lit : ("-repoint" : String).data = ['-', 'r', 'e', 'p', 'o', 'i', 'n', 't'] := rfl
theorem data_pkts_lit : ("pkts" : String).data = ['p', 'k', 't', 's'] := rfl
theorem data_cdf_lit : ("cdf" : String).data = ['c', 'd', 'f'] := rfl

/-- C6 (counterexample): the claim as stated fails — a descriptor containing
a slash satisfies all the claim's hypotheses (nonempty, no underscores), yet
generate_from_inputs fails, because extract_filename_components reduces the
built name to its final path component before matching. -/
theorem C6_roundtrip_counterexample :
    ScienceFilePath.generate_from_inputs "mag" "l1a" "a/b" "20210101" "v001" none =
      Except.error ScienceError.patternMismatch := by
  decide

/-- C6 (amended): for every valid science field tuple whose descriptor also
contains no slash and whose repointing, when present, is below 100000,
generate_from_inputs succeeds and the parsed fields of the result equal the
inputs, with extension pkts for l0 and cdf otherwise. -/
theorem C6_roundtrip_amended (instrument data_level descriptor start_time version : String)
    (repointing : Option Nat)
    (hi : instrument ∈ VALID_INSTRUMENTS)
    (hl : data_level ∈ VALID_DATALEVELS)
    (hd : descriptor.data ≠ [])
    (hdc : ∀ x ∈ descriptor.data, x ≠ '_' ∧ x ≠ '/')
    (hst8 : start_time.data.length = 8)
    (hstd : ∀ x ∈ start_time.data, x.isDigit = true)
    (hdate : ImapFilePath.is_valid_date start_time = true)
    (hver : versionFormatOk version = true)
    (hrep : ∀ r, repointing = some r → 0 < r ∧ r < 100000) :
    ScienceFilePath.generate_from_inputs instrument data_level descriptor start_time
        version repointing =
      Except.ok ⟨science_filename_from_inputs instrument data_level descriptor start_time
          version repointing,
        "imap", instrument, data_level, descriptor, start_time, repointing, version,
        if data_level = "l0" then "pkts" else "cdf"⟩ := by
  obtain ⟨a, b, c, hv, ha, hb, hc⟩ := versionFormatOk_shape hver
  unfold ScienceFilePath.generate_from_inputs
  by_cases hl0 : data_level = "l0"
  · rw [if_pos hl0]
    cases repointing with
    | none =>
      refine generate_build instrument data_level descriptor start_time version "pkts"
        none [] a b c hi hl hd hdc hst8 hstd hdate hv ha hb hc ?_ ?_ ?_ ?_ ?_ ?_
      · simp [science_filename_from_inputs, string_data_append, hv, hl0,
          data_imap_lit, data_us_lit, data_dot_lit, data_empty_lit, data_pkts_lit]
      · intro x hx
        exact absurd hx (by simp)
      · simpa using parseRepointOpt_none_build
          ('v' :: a :: b :: c :: '.' :: ("pkts" : String).data)
      · rfl
      · decide
      · exact Or.inl ⟨hl0, rfl⟩
    | some r =>
      obtain ⟨hr0, hr5⟩ := hrep r rfl
      obtain ⟨hp5len, hp5dig, hp5val⟩ := pad5_spec hr0 hr5
      refine generate_build instrument data_level descriptor start_time version "pkts"
        (some r) ('-' :: 'r' :: 'e' :: 'p' :: 'o' :: 'i' :: 'n' :: 't' :: pad5 r) a b c
        hi hl hd hdc hst8 hstd hdate hv ha hb hc ?_ ?_ ?_ ?_ ?_ ?_
      · simp [science_filename_from_inputs, string_data_append, hv, hl0,
          Nat.pos_iff_ne_zero.mp hr0,
          data_imap_lit, data_us_lit, data_dot_lit, data_empty_lit, data_pkts_lit,
          data_repoint_lit]
      · intro x hx
        rcases List.mem_cons.mp hx with rfl | hx
        · decide
        rcases List.mem_cons.mp hx with rfl | hx
        · decide
        rcases List.mem_cons.mp hx with rfl | hx
        · decide
        rcases List.mem_cons.mp hx with rfl | hx
        · decide
        rcases List.mem_cons.mp hx with rfl | hx
        · decide
        rcases List.mem_cons.mp hx with rfl | hx
        · decide
        rcases List.mem_cons.mp hx with rfl | hx
        · decide
        rcases List.mem_cons.mp hx with rfl | hx
        · decide
        exact (digit_ne_special (hp5dig x hx)).2
      · have := parseRepointOpt_some_build (pad5 r)
          ('v' :: a :: b :: c :: '.' :: ("pkts" : String).data) hp5len hp5dig
        rw [hp5val] at this
        simpa using this
      · rfl
      · decide
      · exact Or.inl ⟨hl0, rfl⟩
  · rw [if_neg hl0]
    cases repointing with
    | none =>
      refine generate_build instrument data_level descriptor start_time version "cdf"
        none [] a b c hi hl hd hdc hst8 hstd hdate hv ha hb hc ?_ ?_ ?_ ?_ ?_ ?_
      · simp [science_filename_from_inputs, string_data_append, hv, hl0,
          data_imap_lit, data_us_lit, data_dot_lit, data_empty_lit, data_cdf_lit]
      · intro x hx
        exact absurd hx (by simp)
      · simpa using parseRepointOpt_none_build
          ('v' :: a :: b :: c :: '.' :: ("cdf" : String).data)
      · rfl
      · decide
      · exact Or.inr ⟨hl0, rfl⟩
    | some r =>
      obtain ⟨hr0, hr5⟩ := hrep r rfl
      obtain ⟨hp5len, hp5dig, hp5val⟩ := pad5_spec hr0 hr5
      refine generate_build instrument data_level descriptor start_time version "cdf"
        (some r) ('-' :: 'r' :: 'e' :: 'p' :: 'o' :: 'i' :: 'n' :: 't' :: pad5 r) a b c
        hi hl hd hdc hst8 hstd hdate hv ha hb hc ?_ ?_ ?_ ?_ ?_ ?_
      · simp [science_filename_from_inputs, string_data_append, hv, hl0,
          Nat.pos_iff_ne_zero.mp hr0,
          data_imap_lit, data_us_lit, data_dot_lit, data_empty_lit, data_cdf_lit,
          data_repoint_lit]
      · intro x hx
        rcases List.mem_cons.mp hx with rfl | hx
        · decide
        rcases List.mem_cons.mp hx with rfl | hx
        · decide
        rcases List.mem_cons.mp hx with rfl | hx
        · decide
        rcases List.mem_cons.mp hx with rfl | hx
        · decide
        rcases List.mem_cons.mp hx with rfl | hx
        · decide
        rcases List.mem_cons.mp hx with rfl | hx
        · decide
        rcases List.mem_cons.mp hx with rfl | hx
        · decide
        rcases List.mem_cons.mp hx with rfl | hx
        · decide
        exact (digit_ne_special (hp5dig x hx)).2
      · have := parseRepointOpt_some_build (pad5 r)
          ('v' :: a :: b :: c :: '.' :: ("cdf" : String).data) hp5len hp5dig
        rw [hp5val] at this
        simpa using this
      · rfl
      · decide
      · exact Or.inr ⟨hl0, rfl⟩

theorem C6_roundtrip_amended_witness :
    ScienceFilePath.generate_from_inputs "mag" "l0" "raw" "20210101" "v001" (some 1) =
      Except.ok ⟨science_filename_from_inputs "mag" "l0" "raw" "20210101" "v001" (some 1),
        "imap", "mag", "l0", "raw", "20210101", some 1, "v001",
        if ("l0" : String) = "l0" then "pkts" else "cdf"⟩ :=
  C6_roundtrip_amended "mag" "l0" "raw" "20210101" "v001" (some 1)
    (by decide) (by decide) (by decide) (by decide) (by decide) (by decide)
    (by decide) (by decide)
    (by
      intro r hr
      rw [← Option.some.inj hr]
      exact ⟨by decide, by decide⟩)

/- ============ Soundness lemmas: each parser consumes a prefix ============ -/

theorem expectLit_shape {p cs r : List Char} (h : expectLit p cs = some r) : cs = p ++ r := by
  induction p generalizing cs with
  | nil =>
    simp [expectLit] at h
    simp [h]
  | cons a ps ih =>
    cases cs with
    | nil => exact Option.noConfusion h
    | cons b cs2 =>
      unfold expectLit at h
      by_cases hb : b = a
      · rw [if_pos hb] at h
        rw [hb]
        simp [ih h]
      · rw [if_neg hb] at h
        exact Option.noConfusion h

theorem expectChar_shape {ch : Char} {cs r : List Char} (h : expectChar ch cs = some r) :
    cs = ch :: r := by
  unfold expectChar at h
  split at h
  · rename_i b cs2
    split at h
    · rename_i hb
      simp at h
      rw [hb, h]
    · exact Option.noConfusion h
  · exact Option.noConfusion h

theorem splitAtUnderscore_shape {cs f r : List Char}
    (h : splitAtUnderscore cs = some (f, r)) : cs = f ++ '_' :: r := by
  induction cs generalizing f with
  | nil => exact Option.noConfusion h
  | cons a cs2 ih =>
    unfold splitAtUnderscore at h
    by_cases ha : a = '_'
    · rw [if_pos ha] at h
      simp at h
      obtain ⟨rfl, rfl⟩ := h
      rw [ha]
      rfl
    · rw [if_neg ha] at h
      cases hrec : splitAtUnderscore cs2 with
      | none => rw [hrec] at h; exact Option.noConfusion h
      | some pr =>
        obtain ⟨f2, r2⟩ := pr
        rw [hrec] at h
        simp at h
        obtain ⟨rfl, rfl⟩ := h
        simp [ih hrec]

theorem takeNDigits_shape : ∀ {n : Nat} {cs d r : List Char},
    takeNDigits n cs = some (d, r) → cs = d ++ r := by
  intro n
  induction n with
  | zero =>
    intro cs d r h
    simp [takeNDigits] at h
    obtain ⟨rfl, rfl⟩ := h
    rfl
  | succ m ih =>
    intro cs d r h
    cases cs with
    | nil => exact Option.noConfusion h
    | cons a cs2 =>
      unfold takeNDigits at h
      by_cases hd : a.isDigit
      · rw [if_pos hd] at h
        cases hrec : takeNDigits m cs2 with
        | none => rw [hrec] at h; exact Option.noConfusion h
        | some pr =>
          obtain ⟨d2, r2⟩ := pr
          rw [hrec] at h
          simp at h
          obtain ⟨rfl, rfl⟩ := h
          simp [ih hrec]
      · rw [if_neg hd] at h
        exact Option.noConfusion h

theorem pre_trans {cs x y : List Char} (h1 : ∃ p, cs = p ++ x) (q : List Char)
    (h2 : x = q ++ y) : ∃ p, cs = p ++ y := by
  obtain ⟨p, hp⟩ := h1
  exact ⟨p ++ q, by rw [hp, h2, List.append_assoc]⟩

theorem parseRepointOpt_shape {cs : List Char} {rep : Option Nat} {r : List Char}
    (h : parseRepointOpt cs = some (rep, r)) : ∃ q, cs = q ++ r := by
  unfold parseRepointOpt at h
  split at h
  · simp at h
    obtain ⟨-, rfl⟩ := h
    exact ⟨['_'], rfl⟩
  · rename_i rest
    split at h
    · exact Option.noConfusion h
    rename_i rest2 he
    split at h
    · exact Option.noConfusion h
    rename_i p5 rest3 ht
    split at h
    · rename_i rest4
      simp at h
      obtain ⟨-, rfl⟩ := h
      have h1 := expectLit_shape he
      have h2 := takeNDigits_shape ht
      refine ⟨'-' :: (['r', 'e', 'p', 'o', 'i', 'n', 't'] ++ (p5 ++ ['_'])), ?_⟩
      rw [h1, h2]
      simp
    · exact Option.noConfusion h
  · exact Option.noConfusion h

theorem parseVer3_shape {cs : List Char} {v : String} {r : List Char}
    (h : parseVer3 cs = some (v, r)) : ∃ q, cs = q ++ r := by
  unfold parseVer3 at h
  split at h
  · rename_i a b c rest
    split at h
    · simp at h
      obtain ⟨-, rfl⟩ := h
      exact ⟨['v', a, b, c], rfl⟩
    · exact Option.noConfusion h
  · exact Option.noConfusion h

theorem parseSciExt_shape {cs : List Char} {e : String} {r : List Char}
    (h : parseSciExt cs = some (e, r)) : cs = e.data ++ r := by
  unfold parseSciExt at h
  split at h
  · simp at h
    obtain ⟨rfl, rfl⟩ := h
    rfl
  · simp at h
    obtain ⟨rfl, rfl⟩ := h
    rfl
  · exact Option.noConfusion h

theorem parseAncExt_shape {cs : List Char} {e : String} {r : List Char}
    (h : parseAncExt cs = some (e, r)) : cs = e.data ++ r := by
  unfold parseAncExt at h
  split at h
  · simp at h
    obtain ⟨rfl, rfl⟩ := h
    rfl
  · simp at h
    obtain ⟨rfl, rfl⟩ := h
    rfl
  · simp at h
    obtain ⟨rfl, rfl⟩ := h
    rfl
  · exact Option.noConfusion h

/-- The science pattern only accepts names that end in a dot, the extension,
and at most one trailing newline tolerated by `$`. -/
theorem parseScience_shape {cs : List Char} {c : ScienceComponents}
    (h : parseScience cs = some c) :
    ∃ p t, cs = p ++ '.' :: (c.extension.data ++ t) ∧ (t = [] ∨ t = ['\n']) := by
  unfold parseScience at h
  split at h
  · exact Option.noConfusion h
  rename_i cs1 e1
  split at h
  · exact Option.noConfusion h
  rename_i instr cs2 e2
  split at h
  · exact Option.noConfusion h
  split at h
  · exact Option.noConfusion h
  rename_i lvl cs3 e3
  split at h
  · exact Option.noConfusion h
  split at h
  · exact Option.noConfusion h
  rename_i desc cs4 e4
  split at h
  · exact Option.noConfusion h
  split at h
  · exact Option.noConfusion h
  rename_i sd cs5 e5
  split at h
  · exact Option.noConfusion h
  rename_i rp cs6 e6
  split at h
  · exact Option.noConfusion h
  rename_i ver cs7 e7
  split at h
  · exact Option.noConfusion h
  rename_i cs8 e8
  split at h
  · exact Option.noConfusion h
  rename_i ext cs9 e9
  split at h
  · rename_i hEnd
    simp at h
    subst h
    have t0 : ∃ p, cs = p ++ cs1 := ⟨['i', 'm', 'a', 'p', '_'], expectLit_shape e1⟩
    have t1 : ∃ p, cs = p ++ cs2 :=
      pre_trans t0 (instr ++ ['_']) (by simpa using splitAtUnderscore_shape e2)
    have t2 : ∃ p, cs = p ++ cs3 :=
      pre_trans t1 (lvl ++ ['_']) (by simpa using splitAtUnderscore_shape e3)
    have t3 : ∃ p, cs = p ++ cs4 :=
      pre_trans t2 (desc ++ ['_']) (by simpa using splitAtUnderscore_shape e4)
    have t4 : ∃ p, cs = p ++ cs5 := pre_trans t3 sd (takeNDigits_shape e5)
    have t5 : ∃ p, cs = p ++ cs6 := by
      obtain ⟨q, hq⟩ := parseRepointOpt_shape e6
      exact pre_trans t4 q hq
    have t6 : ∃ p, cs = p ++ cs7 := by
      obtain ⟨q, hq⟩ := parseVer3_shape e7
      exact pre_trans t5 q hq
    obtain ⟨p, hp⟩ := t6
    refine ⟨p, cs9, ?_, ?_⟩
    · rw [hp, expectChar_shape e8, parseSciExt_shape e9]
    · have h2 := hEnd
      unfold endAnchor at h2
      exact of_decide_eq_true h2
  · exact Option.noConfusion h

theorem parseAncVerExt_shape {cs : List Char} {v e : String}
    (h : parseAncVerExt cs = some (v, e)) :
    ∃ p t, cs = p ++ '.' :: (e.data ++ t) ∧ (t = [] ∨ t = ['\n']) := by
  unfold parseAncVerExt at h
  split at h
  · exact Option.noConfusion h
  rename_i ver cs1 e7
  split at h
  · exact Option.noConfusion h
  rename_i cs2 e8
  split at h
  · exact Option.noConfusion h
  rename_i ext cs3 e9
  split at h
  · rename_i hEnd
    simp at h
    obtain ⟨-, rfl⟩ := h
    obtain ⟨q, hq⟩ := parseVer3_shape e7
    refine ⟨q, cs3, ?_, ?_⟩
    · rw [hq, expectChar_shape e8, parseAncExt_shape e9]
    · have h2 := hEnd
      unfold endAnchor at h2
      exact of_decide_eq_true h2
  · exact Option.noConfusion h

/-- The ancillary pattern only accepts names that end in a dot, the
extension, and at most one trailing newline tolerated by `$`. -/
theorem parseAncillary_shape {cs : List Char} {c : AncillaryComponents}
    (h : parseAncillary cs = some c) :
    ∃ p t, cs = p ++ '.' :: (c.extension.data ++ t) ∧ (t = [] ∨ t = ['\n']) := by
  unfold parseAncillary at h
  split at h
  · exact Option.noConfusion h
  rename_i cs1 e1
  split at h
  · exact Option.noConfusion h
  rename_i instr cs2 e2
  split at h
  · exact Option.noConfusion h
  split at h
  · exact Option.noConfusion h
  rename_i desc cs3 e3
  split at h
  · exact Option.noConfusion h
  split at h
  · exact Option.noConfusion h
  rename_i sd cs4 e4
  have t0 : ∃ p, cs = p ++ cs1 := ⟨['i', 'm', 'a', 'p', '_'], expectLit_shape e1⟩
  have t1 : ∃ p, cs = p ++ cs2 :=
    pre_trans t0 (instr ++ ['_']) (by simpa using splitAtUnderscore_shape e2)
  have t2 : ∃ p, cs = p ++ cs3 :=
    pre_trans t1 (desc ++ ['_']) (by simpa using splitAtUnderscore_shape e3)
  split at h
  · rename_i cs5
    have t3 : ∃ p, cs = p ++ cs5 :=
      pre_trans t2 (sd ++ ['_']) (by simpa using takeNDigits_shape e4)
    split at h
    · rename_i ed cs6 e5
      split at h
      · rename_i cs7
        have t4 : ∃ p, cs = p ++ cs7 :=
          pre_trans t3 (ed ++ ['_']) (by simpa using takeNDigits_shape e5)
        rw [Option.map_eq_some'] at h
        obtain ⟨q0, hq0, rfl⟩ := h
        obtain ⟨vv, ee⟩ := q0
        obtain ⟨p2, t, hpt, ht⟩ := parseAncVerExt_shape hq0
        obtain ⟨p1, hp1⟩ := t4
        exact ⟨p1 ++ p2, t, by rw [hp1, hpt, List.append_assoc], ht⟩
      · exact Option.noConfusion h
    · rw [Option.map_eq_some'] at h
      obtain ⟨q0, hq0, rfl⟩ := h
      obtain ⟨vv, ee⟩ := q0
      obtain ⟨p2, t, hpt, ht⟩ := parseAncVerExt_shape hq0
      obtain ⟨p1, hp1⟩ := t3
      exact ⟨p1 ++ p2, t, by rw [hp1, hpt, List.append_assoc], ht⟩
  · exact Option.noConfusion h

/-- Boolean check that `cs` ends with `suf`. -/
def endsWithChars (suf cs : List Char) : Bool :=
  (cs.drop (cs.length - suf.length)) == suf

theorem endsWithChars_append (p suf : List Char) : endsWithChars suf (p ++ suf) = true := by
  unfold endsWithChars
  have hlen : (p ++ suf).length - suf.length = p.length := by simp
  rw [hlen, List.drop_left]
  exact beq_self_eq_true suf

/-- C9 (counterexample): the science pattern does not reject every filename
with trailing characters after the extension — CPython `$` also matches just
before one trailing newline, so a name ending in ".cdf" plus a newline is
accepted and even constructs successfully. -/
theorem C9_anchoring_counterexample :
    ScienceFilePath.fromFilename "imap_mag_l1a_burst_20210101_v001.cdf\n" =
      Except.ok ⟨"imap_mag_l1a_burst_20210101_v001.cdf\n", "imap", "mag", "l1a",
        "burst", "20210101", none, "v001", "cdf"⟩ := by
  decide

/-- C9 (amended): the SPICE grammars are anchored only at the start of the
lower-cased name — a matching prefix followed by arbitrary trailing
characters is accepted — while the Science and Ancillary patterns are
anchored at the end as well: every accepted name ends with a dot, the
extension, and at most one trailing newline (the single tail `$` tolerates). -/
theorem C9_anchoring_amended :
    SPICEFilePath.fromFilename "imap_0000_000_0000_000_01.ap.bc.backup" =
      Except.ok ⟨"imap_0000_000_0000_000_01.ap.bc.backup",
        [("mission", SpiceValue.str "imap"), ("start_year", SpiceValue.str "0000"),
         ("start_doy", SpiceValue.str "000"), ("end_year", SpiceValue.str "0000"),
         ("end_doy", SpiceValue.str "000"), ("version", SpiceValue.int 1),
         ("type", SpiceValue.str "attitude_predict")]⟩ ∧
    (∀ f c, ScienceFilePath.extract_filename_components f = some c →
      endsWithChars ('.' :: c.extension.data) (pathName f).data = true ∨
      endsWithChars ('.' :: c.extension.data ++ ['\n']) (pathName f).data = true) ∧
    (∀ f c, AncillaryFilePath.extract_filename_components f = some c →
      endsWithChars ('.' :: c.extension.data) (pathName f).data = true ∨
      endsWithChars ('.' :: c.extension.data ++ ['\n']) (pathName f).data = true) := by
  refine ⟨by decide, ?_, ?_⟩
  · intro f c he
    unfold ScienceFilePath.extract_filename_components at he
    obtain ⟨p, t, hpt, ht⟩ := parseScience_shape he
    rcases ht with rfl | rfl
    · left
      rw [hpt]
      simpa using endsWithChars_append p ('.' :: c.extension.data)
    · right
      rw [hpt]
      have := endsWithChars_append p ('.' :: c.extension.data ++ ['\n'])
      simpa using this
  · intro f c he
    unfold AncillaryFilePath.extract_filename_components at he
    obtain ⟨p, t, hpt, ht⟩ := parseAncillary_shape he
    rcases ht with rfl | rfl
    · left
      rw [hpt]
      simpa using endsWithChars_append p ('.' :: c.extension.data)
    · right
      rw [hpt]
      have := endsWithChars_append p ('.' :: c.extension.data ++ ['\n'])
      simpa using this

theorem C9_anchoring_amended_witness :
    endsWithChars ('.' :: ("cdf" : String).data)
        (pathName "imap_mag_l1a_burst_20210101_v001.cdf").data = true ∨
    endsWithChars ('.' :: ("cdf" : String).data ++ ['\n'])
        (pathName "imap_mag_l1a_burst_20210101_v001.cdf").data = true :=
  C9_anchoring_amended.2.1 "imap_mag_l1a_burst_20210101_v001.cdf"
    ⟨"imap", "mag", "l1a", "burst", "20210101", none, "v001", "cdf"⟩ (by decide)
